import Mathlib

/-
Shallow embedding of the loader scripts of the STADVDB_MCO1 repository
(src/loaders/books_films_reviews_loader.py, tmdb_loader.py,
box_office_loader.py, imdb_loader.py).

Modelling conventions:
* Python scalar values are modelled by `PyVal` (the values that flow out of
  a pandas row: None, str, int, float, bool).  Python floats are modelled
  exactly, as rationals plus `nan`, `inf`, `-inf`; Python ints as `Int`.
  Division in derived measures is exact rational division.
* A Python primitive that can raise is modelled in `Except PyErr`; a
  `try/except Exception` block is `tryExcept` with a handler.
* Library collaborators whose output format is environment-dependent are
  parameters: `td` models `pd.to_datetime(val, errors="coerce")` (which
  returns NaT, i.e. `none`, instead of raising) and `frepr` models the
  decimal rendering `str(x)` of a finite Python float.
-/

inductive PFloat where
  | num (q : ℚ)
  | nan
  | inf
  | ninf
deriving DecidableEq

inductive PyVal where
  | none
  | str (s : String)
  | int (i : Int)
  | float (f : PFloat)
  | bool (b : Bool)
deriving DecidableEq

inductive PyErr where
  | valueError
  | typeError
  | overflowError
deriving DecidableEq

/-- A Python `try: body except Exception: handler` block. -/
def tryExcept {α : Type} (body : Except PyErr α) (handler : PyErr → Except PyErr α) :
    Except PyErr α :=
  match body with
  | .ok a => .ok a
  | .error e => handler e

/-- Python truthiness of a scalar (`if not x`). -/
def pyTruthy : PyVal → Bool
  | .none => false
  | .str s => !s.isEmpty
  | .int i => i != 0
  | .float (.num q) => q != 0
  | .float _ => true
  | .bool b => b

/-- `pd.isna` on a scalar value. -/
def pyIsNa : PyVal → Bool
  | .none => true
  | .float .nan => true
  | _ => false

/-- Python `str(x)` on a scalar; `frepr` renders a finite float. -/
def pyStr (frepr : ℚ → String) : PyVal → String
  | .none => "None"
  | .str s => s
  | .int i => toString i
  | .float (.num q) => frepr q
  | .float .nan => "nan"
  | .float .inf => "inf"
  | .float .ninf => "-inf"
  | .bool b => if b then "True" else "False"

/-! ### Python dates (`datetime.date`) -/

structure PDate where
  year : Int
  month : Int
  day : Int
deriving DecidableEq

def isLeapYear (y : Int) : Bool := (y % 4 == 0 && y % 100 != 0) || y % 400 == 0

def daysInMonth (y m : Int) : Int :=
  if m = 2 then (if isLeapYear y then 29 else 28)
  else if m = 4 ∨ m = 6 ∨ m = 9 ∨ m = 11 then 30
  else 31

/-- The `date(y, m, d)` constructor; raises `ValueError` out of range. -/
def mkDate (y m d : Int) : Except PyErr PDate :=
  if 1 ≤ y ∧ y ≤ 9999 ∧ 1 ≤ m ∧ m ≤ 12 ∧ 1 ≤ d ∧ d ≤ daysInMonth y m then
    Except.ok ⟨y, m, d⟩
  else Except.error .valueError

/-! ### The `float(...)` and `int(...)` primitives -/

def digitsToNat (l : List Char) : Nat :=
  l.foldl (fun n c => n * 10 + (c.toNat - '0'.toNat)) 0

/-- Decimal literal without sign: `digits`, `digits.digits`, `.digits`, `digits.`
The exact value of `ddd.fff` is `(ddd * 10^|fff| + fff) / 10^|fff|`, built with
`mkRat` so that it is a normalised rational. -/
def parseUnsignedFloat (l : List Char) : Option ℚ :=
  let intPart := l.takeWhile Char.isDigit
  let rest := l.dropWhile Char.isDigit
  match rest with
  | [] => if intPart = [] then Option.none else some (mkRat (digitsToNat intPart) 1)
  | '.' :: frac =>
      if frac.all Char.isDigit && !(intPart = [] && frac = []) then
        some (mkRat (digitsToNat (intPart ++ frac)) (10 ^ frac.length))
      else Option.none
  | _ => Option.none

def parseMagnitude (neg : Bool) (l : List Char) : Except PyErr PFloat :=
  let low := l.map Char.toLower
  if low = ['n', 'a', 'n'] then Except.ok .nan
  else if low = ['i', 'n', 'f'] ∨ low = ['i', 'n', 'f', 'i', 'n', 'i', 't', 'y'] then
    Except.ok (if neg then .ninf else .inf)
  else
    match parseUnsignedFloat l with
    | some q => Except.ok (.num (if neg then -q else q))
    | Option.none => Except.error .valueError

/-- Python `float(s)` on a string (plain decimal forms; exponent forms are
outside the inputs this repository feeds to it). -/
def pyFloatOfString (s : String) : Except PyErr PFloat :=
  let t := ((s.data.dropWhile Char.isWhitespace).reverse.dropWhile Char.isWhitespace).reverse
  match t with
  | '+' :: rest => parseMagnitude false rest
  | '-' :: rest => parseMagnitude true rest
  | rest => parseMagnitude false rest

/-- Python `float(v)` on a scalar. -/
def pyFloat : PyVal → Except PyErr PFloat
  | .none => Except.error .typeError
  | .str s => pyFloatOfString s
  | .int i => Except.ok (.num (i : ℚ))
  | .float f => Except.ok f
  | .bool b => Except.ok (.num (if b then 1 else 0))

/-- Python `int(f)` on a float: truncation toward zero; raises on nan/inf. -/
def pyIntOfFloat : PFloat → Except PyErr Int
  | .num q => Except.ok (if 0 ≤ q then ⌊q⌋ else ⌈q⌉)
  | .nan => Except.error .valueError
  | .inf => Except.error .overflowError
  | .ninf => Except.error .overflowError

/-- Python `int(v)` on a numeric scalar (used as `int(val)` in `_coerce_date`
after an `isinstance(val, (int, float))` guard). -/
def pyIntOfNum : PyVal → Except PyErr Int
  | .int i => Except.ok i
  | .bool b => Except.ok (if b then 1 else 0)
  | .float f => pyIntOfFloat f
  | _ => Except.error .typeError

/-- `f < x` with Python float comparison semantics (nan compares false). -/
def pfLtQ : PFloat → ℚ → Bool
  | .num q, x => q < x
  | .nan, _ => false
  | .inf, _ => false
  | .ninf, _ => true

/-- `f > x` with Python float comparison semantics (nan compares false). -/
def pfGtQ : PFloat → ℚ → Bool
  | .num q, x => x < q
  | .nan, _ => false
  | .inf, _ => true
  | .ninf, _ => false

/-- `isinstance(v, (int, float))` — Python bools are ints. -/
def pyIsNumber : PyVal → Bool
  | .int _ => true
  | .float _ => true
  | .bool _ => true
  | _ => false

/-- `1800 < val < 2100` on a numeric scalar. -/
def inYearRange : PyVal → Bool
  | .int i => 1800 < i && i < 2100
  | .float (.num q) => 1800 < q && q < 2100
  | .float _ => false
  | .bool _ => false
  | _ => false

/-! ### The regex `tt?(\d+)` of `_derive_movie_id_source_from_imdb` -/

/-- Longest digit prefix (`\d+`, greedy, at a fixed position). -/
def leadDigits (l : List Char) : List Char := l.takeWhile Char.isDigit

/-- Match of `tt?(\d+)` anchored at the head of `l`, with the regex
backtracking semantics of `re`: try `tt` then a digit run, else `t` then a
digit run.  (When the second character is `t` but no digit follows it, the
single-`t` alternative also fails, since the character after the first `t`
is `t`, not a digit.) -/
def ttMatch : List Char → Option (List Char)
  | [] => Option.none
  | c :: rest =>
    if c = 't' then
      match rest with
      | [] => Option.none
      | c2 :: rest2 =>
        if c2 = 't' then
          if leadDigits rest2 = [] then Option.none else some (leadDigits rest2)
        else
          if leadDigits (c2 :: rest2) = [] then Option.none else some (leadDigits (c2 :: rest2))
    else Option.none

/-- `re.search(r"tt?(\d+)", s)`: leftmost match, returning group 1. -/
def searchTT : List Char → Option (List Char)
  | [] => Option.none
  | c :: rest =>
    match ttMatch (c :: rest) with
    | some g => some g
    | Option.none => searchTT rest

/-- Python `s.strip()`. -/
def pyStrip (l : List Char) : List Char :=
  ((l.dropWhile Char.isWhitespace).reverse.dropWhile Char.isWhitespace).reverse

/-- Independent characterisation used to settle claim C3: the list contains
a `'t'` immediately followed by a digit. -/
def hasTD : List Char → Bool
  | a :: b :: rest => (a = 't' && b.isDigit) || hasTD (b :: rest)
  | _ => false

/-! ### The normalizers (shared across the loader files) -/

/-- `_derive_movie_id_source_from_imdb` (books_films_reviews_loader.py:9-14,
identical copies in tmdb_loader.py, box_office_loader.py, imdb_loader.py). -/
def derive_movie_id_source_from_imdb (v : PyVal) : Option String :=
  match v with
  | .str s =>
      if s.data.isEmpty then Option.none
      else (searchTT (pyStrip s.data)).map (fun ds => String.mk ds)
  | _ => Option.none

/-- Body of the `try` block of `_safe_float` (books_films_reviews_loader.py:38-45);
an error of `float(v)` propagates to the handler. -/
def safe_float_body (v : PyVal) (lo hi : Option ℚ) : Except PyErr (Option PFloat) :=
  match pyFloat v with
  | .error e => .error e
  | .ok f =>
    if (match lo with | some l => pfLtQ f l | Option.none => false) then .ok Option.none
    else if (match hi with | some h => pfGtQ f h | Option.none => false) then .ok Option.none
    else .ok (some f)

/-- Calling `_safe_float(v, lo, hi)`: the `try/except` wraps the whole body. -/
def safe_float_call (v : PyVal) (lo hi : Option ℚ) : Except PyErr (Option PFloat) :=
  tryExcept (safe_float_body v lo hi) (fun _ => Except.ok Option.none)

/-- `_safe_float` as the plain value the caller receives. -/
def safe_float (v : PyVal) (lo hi : Option ℚ) : Option PFloat :=
  match safe_float_call v lo hi with
  | .ok o => o
  | .error _ => Option.none

/-- Body of the `try` block of `_safe_int` (`int(float(v))`). -/
def safe_int_body (v : PyVal) : Except PyErr (Option Int) :=
  match pyFloat v with
  | .error e => .error e
  | .ok f =>
    match pyIntOfFloat f with
    | .error e => .error e
    | .ok i => .ok (some i)

/-- Calling `_safe_int(v)`. -/
def safe_int_call (v : PyVal) : Except PyErr (Option Int) :=
  tryExcept (safe_int_body v) (fun _ => Except.ok Option.none)

/-- `_safe_int` as the plain value the caller receives. -/
def safe_int (v : PyVal) : Option Int :=
  match safe_int_call v with
  | .ok o => o
  | .error _ => Option.none

/-- First position with four consecutive digits: `re.search(r"(\d{4})", s)`. -/
def find4digits : List Char → Option (List Char)
  | a :: b :: c :: d :: rest =>
      if a.isDigit && b.isDigit && c.isDigit && d.isDigit then some [a, b, c, d]
      else find4digits (b :: c :: d :: rest)
  | _ => Option.none

/-- Body of the `try` block of `_coerce_date`
(books_films_reviews_loader.py:16-31).  `td` is the
`pd.to_datetime(val, errors="coerce")` collaborator (NaT = `none`). -/
def coerce_date_body (td : PyVal → Option PDate) (frepr : ℚ → String) (v : PyVal) :
    Except PyErr (Option PDate) :=
  if pyIsNumber v && inYearRange v then
    match pyIntOfNum v with
    | .error e => .error e
    | .ok y =>
      match mkDate y 1 1 with
      | .error e => .error e
      | .ok d => .ok (some d)
  else
    match td v with
    | Option.none =>
        match find4digits (pyStr frepr v).data with
        | some ds =>
            match mkDate ((digitsToNat ds : Int)) 1 1 with
            | .error e => .error e
            | .ok d => .ok (some d)
        | Option.none => .ok Option.none
    | some dt => .ok (some dt)

/-- Calling `_coerce_date(val)`: the `None` check precedes the `try`. -/
def coerce_date_call (td : PyVal → Option PDate) (frepr : ℚ → String) (v : PyVal) :
    Except PyErr (Option PDate) :=
  match v with
  | .none => Except.ok Option.none
  | _ => tryExcept (coerce_date_body td frepr v) (fun _ => Except.ok Option.none)

/-- `_coerce_date` as the plain value the caller receives. -/
def coerce_date (td : PyVal → Option PDate) (frepr : ℚ → String) (v : PyVal) :
    Option PDate :=
  match coerce_date_call td frepr v with
  | .ok o => o
  | .error _ => Option.none

/-- Python `s.replace(c, "")` for a one-character pattern `c` (the only form
of `str.replace` this repository uses): removes every occurrence of `c`. -/
def pyRemoveChar (c : Char) (s : String) : String :=
  String.mk (s.data.filter (fun x => x ≠ c))

/-- Body of the `try` block of `_clean_currency` (box_office_loader.py:57-65):
`str(val).replace("$", "").replace(",", "")` fed to `_safe_float`.  No
primitive in the body can raise (`_safe_float` catches internally). -/
def clean_currency_body (frepr : ℚ → String) (v : PyVal) : Except PyErr (Option PFloat) :=
  Except.ok (safe_float (.str (pyRemoveChar ',' (pyRemoveChar '$' (pyStr frepr v)))) Option.none Option.none)

/-- Calling `_clean_currency(val)`: the `pd.isna` check precedes the `try`. -/
def clean_currency_call (frepr : ℚ → String) (v : PyVal) : Except PyErr (Option PFloat) :=
  if pyIsNa v then Except.ok Option.none
  else tryExcept (clean_currency_body frepr v) (fun _ => Except.ok Option.none)

/-- `_clean_currency` as the plain value the caller receives. -/
def clean_currency (frepr : ℚ → String) (v : PyVal) : Option PFloat :=
  match clean_currency_call frepr v with
  | .ok o => o
  | .error _ => Option.none

/-- `_date_to_sk` (books_films_reviews_loader.py:34-36): YYYYMMDD as int. -/
def date_to_sk (d : PDate) : Int := d.year * 10000 + d.month * 100 + d.day

/-- `_derive_movie_id_source_from_imdb` contains no fallible primitive
(`re.search`, `.strip()`, `.group` on a successful match and the type test
cannot raise), so its call semantics is the plain value. -/
def derive_movie_id_call (v : PyVal) : Except PyErr (Option String) :=
  Except.ok (derive_movie_id_source_from_imdb v)

/-! ### Derived financial measures (claim C2)

Exact arithmetic: Python ints are `Int`; the float division in the ROI
expression is modelled as exact rational division. -/

/-- `profit = (revenue - budget) if budget is not None and revenue is not None
else None` at the fact-build site (books_films_reviews_loader.py:419). -/
def bfr_profit (budget revenue : Option Int) : Option Int :=
  match budget, revenue with
  | some b, some r => some (r - b)
  | _, _ => Option.none

/-- `roi = (profit / budget * 100) if profit is not None and budget is not None
and budget != 0 else None` (books_films_reviews_loader.py:420). -/
def bfr_roi (profit budget : Option Int) : Option ℚ :=
  match profit, budget with
  | some p, some b => if b ≠ 0 then some ((p : ℚ) / (b : ℚ) * 100) else Option.none
  | _, _ => Option.none

/-- `profit = (revenue - budget) if ... else None` in the remote-API enricher
(tmdb_loader.py:209). -/
def tmdb_profit (budget revenue : Option Int) : Option Int :=
  match budget, revenue with
  | some b, some r => some (r - b)
  | _, _ => Option.none

/-- `roi = (profit / budget * 100) if profit is not None and budget is not None
and budget > 0 else None` in the remote-API enricher (tmdb_loader.py:210) —
note the guard is `> 0` here, not `!= 0`. -/
def tmdb_roi (profit budget : Option Int) : Option ℚ :=
  match profit, budget with
  | some p, some b => if 0 < b then some ((p : ℚ) / (b : ℚ) * 100) else Option.none
  | _, _ => Option.none

/-! ### Remote-system id derivation of `_get_tmdb_id` (claim C4) -/

/-- `s begins with the prefix pre` on character lists (Python `str.startswith`). -/
def leadsWith : List Char → List Char → Bool
  | [], _ => true
  | _ :: _, [] => false
  | a :: as, b :: bs => a = b && leadsWith as bs

def pyStartsWith (s p : String) : Bool := leadsWith p.data s.data

/-- Python `str.zfill(w)`: left-pad with `'0'` to width `w`, keeping a
leading sign character in front of the padding. -/
def zfillL (l : List Char) (w : Nat) : List Char :=
  if w ≤ l.length then l
  else
    match l with
    | c :: rest =>
        if c = '+' ∨ c = '-' then c :: (List.replicate (w - l.length) '0' ++ rest)
        else List.replicate (w - l.length) '0' ++ l
    | [] => List.replicate w '0'

def zfill (s : String) (w : Nat) : String := String.mk (zfillL s.data w)

/-- Python `str.isdigit()` (restricted to ASCII digits, the only digits these
identifiers carry). -/
def pyIsDigitStr (s : String) : Bool := !s.data.isEmpty && s.data.all Char.isDigit

/-- The id-rewriting prefix logic of `_get_tmdb_id` (tmdb_loader.py:74-98) up
to the network call: returns the external id actually sent to the find-by-id
endpoint together with the results key that will be read from the response
(`person_results` iff the final id starts with `nm`, tmdb_loader.py:118), or
`Option.none` when the empty id aborts before any call. -/
def derive_tmdb_external_id (external_id : String) (external_source_type : String) :
    Option (String × String) :=
  if external_id.data.isEmpty then Option.none
  else
    let eid :=
      if external_source_type = "imdb_id" then
        if !pyStartsWith external_id "tt" && !pyStartsWith external_id "nm" then
          if 7 ≤ external_id.length && pyIsDigitStr external_id then
            "nm" ++ zfill external_id 7
          else "tt" ++ zfill external_id 7
        else if pyStartsWith external_id "tt" && external_id.length < 9 then
          "tt" ++ zfill (String.mk (external_id.data.drop 2)) 7
        else if pyStartsWith external_id "nm" && external_id.length < 9 then
          "nm" ++ zfill (String.mk (external_id.data.drop 2)) 7
        else external_id
      else external_id
    let results_key :=
      if external_source_type = "imdb_id" && pyStartsWith eid "nm" then "person_results"
      else "movie_results"
    some (eid, results_key)

/-! ### Lemmas on the `tt?(\d+)` search -/

theorem ws_ne_t {c : Char} (h : c.isWhitespace = true) : c ≠ 't' := by
  intro hc; subst hc; exact absurd h (by decide)

theorem ws_not_digit {c : Char} (h : c.isWhitespace = true) : c.isDigit = false := by
  simp only [Char.isWhitespace, Bool.or_eq_true, decide_eq_true_eq] at h
  rcases h with ((h | h) | h) | h <;> (subst h; decide)

theorem digit_ne_t {c : Char} (h : c.isDigit = true) : c ≠ 't' := by
  intro hc; subst hc; exact absurd h (by decide)

theorem leadDigits_cons (c : Char) (l : List Char) :
    leadDigits (c :: l) = if c.isDigit then c :: leadDigits l else [] := by
  simp [leadDigits, List.takeWhile_cons]

theorem leadDigits_append_ws (l ws : List Char) (h : ∀ c ∈ ws, c.isWhitespace = true) :
    leadDigits (l ++ ws) = leadDigits l := by
  induction l with
  | nil =>
    cases ws with
    | nil => rfl
    | cons w ws' =>
      have hw := ws_not_digit (h w (by simp))
      simp [leadDigits, List.takeWhile_cons, hw]
  | cons c l' ih =>
    rw [List.cons_append, leadDigits_cons, leadDigits_cons]
    by_cases hc : c.isDigit
    · simp [hc, ih]
    · simp [hc]

theorem ttMatch_append_ws (x ws : List Char) (h : ∀ c ∈ ws, c.isWhitespace = true) :
    ttMatch (x ++ ws) = ttMatch x := by
  cases x with
  | nil =>
    cases ws with
    | nil => rfl
    | cons w ws' =>
      have hw : w ≠ 't' := ws_ne_t (h w (by simp))
      simp [ttMatch, hw]
  | cons c x' =>
    by_cases hc : c = 't'
    · subst hc
      cases x' with
      | nil =>
        cases ws with
        | nil => rfl
        | cons w ws' =>
          have hw : w ≠ 't' := ws_ne_t (h w (by simp))
          have hd : leadDigits (w :: ws') = [] := by
            simp [leadDigits_cons, ws_not_digit (h w (by simp))]
          simp [ttMatch, hw, hd]
      | cons c2 x'' =>
        by_cases hc2 : c2 = 't'
        · subst hc2
          simp only [List.cons_append]
          simp [ttMatch, leadDigits_append_ws x'' ws h]
        · simp only [List.cons_append]
          have := leadDigits_append_ws (c2 :: x'') ws h
          rw [List.cons_append] at this
          simp [ttMatch, hc2, this]
    · simp [ttMatch, hc]

theorem searchTT_ws_prepend (ws l : List Char) (h : ∀ c ∈ ws, c.isWhitespace = true) :
    searchTT (ws ++ l) = searchTT l := by
  induction ws with
  | nil => simp
  | cons w ws' ih =>
    have hw : w ≠ 't' := ws_ne_t (h w (by simp))
    have hm : ttMatch (w :: (ws' ++ l)) = Option.none := by simp [ttMatch, hw]
    rw [List.cons_append, searchTT, hm]
    exact ih (fun c hc => h c (by simp [hc]))

theorem searchTT_ws_append (l ws : List Char) (h : ∀ c ∈ ws, c.isWhitespace = true) :
    searchTT (l ++ ws) = searchTT l := by
  induction l with
  | nil =>
    have h0 : searchTT (ws ++ []) = searchTT [] := searchTT_ws_prepend ws [] h
    simpa using h0
  | cons c l' ih =>
    rw [List.cons_append, searchTT, searchTT]
    have hm : ttMatch (c :: (l' ++ ws)) = ttMatch (c :: l') := by
      have := ttMatch_append_ws (c :: l') ws h
      rwa [List.cons_append] at this
    rw [hm]
    cases ttMatch (c :: l') with
    | some g => rfl
    | none => exact ih

theorem searchTT_pyStrip (l : List Char) : searchTT (pyStrip l) = searchTT l := by
  have e1 : searchTT l = searchTT (l.dropWhile Char.isWhitespace) := by
    conv_lhs => rw [← List.takeWhile_append_dropWhile (p := Char.isWhitespace) (l := l)]
    exact searchTT_ws_prepend _ _ (fun c hc => List.mem_takeWhile_imp hc)
  have e2 : pyStrip l ++
      ((l.dropWhile Char.isWhitespace).reverse.takeWhile Char.isWhitespace).reverse
      = l.dropWhile Char.isWhitespace := by
    unfold pyStrip
    rw [← List.reverse_append, List.takeWhile_append_dropWhile, List.reverse_reverse]
  have e3 : searchTT (l.dropWhile Char.isWhitespace) = searchTT (pyStrip l) := by
    rw [← e2]
    exact searchTT_ws_append _ _
      (fun c hc => List.mem_takeWhile_imp (List.mem_reverse.mp hc))
  rw [e1, e3]

theorem searchTT_eq_none_iff (l : List Char) : searchTT l = Option.none ↔ hasTD l = false := by
  induction l with
  | nil => simp [searchTT, hasTD]
  | cons c rest ih =>
    cases rest with
    | nil =>
      by_cases hc : c = 't' <;> simp [searchTT, ttMatch, hasTD, hc]
    | cons b rest2 =>
      by_cases hc : c = 't'
      · subst hc
        by_cases hb : b = 't'
        · subst hb
          cases rest2 with
          | nil =>
            simp [searchTT, ttMatch, hasTD, leadDigits]
          | cons d r2 =>
            by_cases hd : d.isDigit
            · simp [searchTT, ttMatch, hasTD, leadDigits_cons, hd]
            · have h1 : leadDigits (d :: r2) = [] := by simp [leadDigits_cons, hd]
              simp only [searchTT, ttMatch, h1, if_pos rfl, reduceIte, hasTD, hd]
              simpa [searchTT, ttMatch, hasTD, h1, hd] using ih
        · by_cases hbd : b.isDigit
          · simp [searchTT, ttMatch, hasTD, hb, leadDigits_cons, hbd]
          · have h1 : leadDigits (b :: rest2) = [] := by simp [leadDigits_cons, hbd]
            simpa [searchTT, ttMatch, hasTD, hb, h1, hbd] using ih
      · simpa [searchTT, ttMatch, hasTD, hc] using ih

theorem digit_ne_n {c : Char} (h : c.isDigit = true) : c ≠ 'n' := by
  intro hc; subst hc; exact absurd h (by decide)

theorem searchTT_tt_digit (d : Char) (rest : List Char) (hd : d.isDigit = true) :
    searchTT ('t' :: 't' :: d :: rest) = some (d :: leadDigits rest) ∧
    searchTT ('t' :: d :: rest) = some (d :: leadDigits rest) := by
  have h1 : leadDigits (d :: rest) = d :: leadDigits rest := by simp [leadDigits_cons, hd]
  have hdt : ¬ (d = 't') := digit_ne_t hd
  constructor
  · have hm : ttMatch ('t' :: 't' :: d :: rest) = some (d :: leadDigits rest) := by
      simp [ttMatch, h1]
    simp [searchTT, hm]
  · have hm : ttMatch ('t' :: d :: rest) = some (d :: leadDigits rest) := by
      simp [ttMatch, hdt, h1]
    simp [searchTT, hm]

/-- C3 counterexample: `"0133093"` is a string that contains a digit run, yet
`_derive_movie_id_source_from_imdb` returns `None` on it, because
`re.search(r"tt?(\d+)", ...)` only matches a digit run preceded by `t`/`tt`.
This falsifies "returns None exactly when the input is not a string or
contains no digit run". -/
theorem C3_counterexample :
    derive_movie_id_source_from_imdb (.str "0133093") = Option.none ∧
    "0133093".data.any Char.isDigit = true := by decide

/-- C3 (amended): for a digit run preceded by a `t`/`tt` prefix the
normalizer extracts the same digit run regardless of the prefix variant; and
it returns `None` exactly when the input is not a string, is the empty
string, or contains no digit immediately preceded by a `t`. -/
theorem C3_identifier_normalizer :
    (∀ (d : Char) (rest : List Char), d.isDigit = true →
      derive_movie_id_source_from_imdb (.str (String.mk ('t' :: 't' :: d :: rest)))
        = derive_movie_id_source_from_imdb (.str (String.mk ('t' :: d :: rest))) ∧
      derive_movie_id_source_from_imdb (.str (String.mk ('t' :: d :: rest)))
        = some (String.mk (d :: leadDigits rest))) ∧
    (∀ s : String, derive_movie_id_source_from_imdb (.str s) = Option.none ↔
      (s.data = [] ∨ hasTD s.data = false)) ∧
    (∀ v : PyVal, (∀ s, v ≠ .str s) → derive_movie_id_source_from_imdb v = Option.none) := by
  refine ⟨?_, ?_, ?_⟩
  · intro d rest hd
    have h2 := searchTT_tt_digit d rest hd
    have e1 : derive_movie_id_source_from_imdb (.str (String.mk ('t' :: 't' :: d :: rest)))
        = some (String.mk (d :: leadDigits rest)) := by
      simp only [derive_movie_id_source_from_imdb, List.isEmpty_cons, if_false,
        Bool.false_eq_true, searchTT_pyStrip, h2.1]
      rfl
    have e2 : derive_movie_id_source_from_imdb (.str (String.mk ('t' :: d :: rest)))
        = some (String.mk (d :: leadDigits rest)) := by
      simp only [derive_movie_id_source_from_imdb, List.isEmpty_cons, if_false,
        Bool.false_eq_true, searchTT_pyStrip, h2.2]
      rfl
    exact ⟨e1.trans e2.symm, e2⟩
  · intro s
    by_cases he : s.data.isEmpty
    · have hnil : s.data = [] := List.isEmpty_iff.mp he
      simp [derive_movie_id_source_from_imdb, he, hnil]
    · have hnil : ¬ s.data = [] := fun h => he (by simp [h])
      simp only [derive_movie_id_source_from_imdb, he, Bool.false_eq_true, if_false,
        hnil, false_or]
      rw [Option.map_eq_none', searchTT_pyStrip, searchTT_eq_none_iff]
  · intro v hv
    cases v with
    | str s => exact absurd rfl (hv s)
    | none => rfl
    | int i => rfl
    | float f => rfl
    | bool b => rfl

/-- C3 witness: both `"tt0133093"` and `"t0133093"` give `"0133093"`, and a
non-string input gives `None`. -/
theorem C3_witness :
    (derive_movie_id_source_from_imdb (.str (String.mk ('t' :: 't' :: '0' :: "133093".data)))
      = derive_movie_id_source_from_imdb (.str (String.mk ('t' :: '0' :: "133093".data))) ∧
     derive_movie_id_source_from_imdb (.str (String.mk ('t' :: '0' :: "133093".data)))
      = some (String.mk ('0' :: leadDigits "133093".data))) ∧
    derive_movie_id_source_from_imdb (.int 5) = Option.none :=
  ⟨C3_identifier_normalizer.1 '0' "133093".data (by decide),
   C3_identifier_normalizer.2.2 (.int 5) (fun s h => PyVal.noConfusion h)⟩

/-! ### Claim C5: the normalizers never raise -/

theorem tryExcept_isOk {α : Type} (body : Except PyErr α) (d : α) :
    ∃ o, tryExcept body (fun _ => Except.ok d) = Except.ok o := by
  cases body with
  | ok a => exact ⟨a, rfl⟩
  | error e => exact ⟨d, rfl⟩

/-- C5: every normalizer (identifier extraction, date coercion, bounded
numeric coercion, integer coercion, currency cleaning) is total over every
scalar input and never raises: its call semantics is always `Except.ok` —
every internal failure path is caught and converted to `None`. -/
theorem C5_normalizers_never_raise (td : PyVal → Option PDate) (frepr : ℚ → String)
    (v : PyVal) (lo hi : Option ℚ) :
    (∃ o, derive_movie_id_call v = Except.ok o) ∧
    (∃ o, coerce_date_call td frepr v = Except.ok o) ∧
    (∃ o, safe_float_call v lo hi = Except.ok o) ∧
    (∃ o, safe_int_call v = Except.ok o) ∧
    (∃ o, clean_currency_call frepr v = Except.ok o) := by
  refine ⟨⟨_, rfl⟩, ?_, tryExcept_isOk _ _, tryExcept_isOk _ _, ?_⟩
  · cases v with
    | none => exact ⟨Option.none, rfl⟩
    | str s => exact tryExcept_isOk _ _
    | int i => exact tryExcept_isOk _ _
    | float f => exact tryExcept_isOk _ _
    | bool b => exact tryExcept_isOk _ _
  · unfold clean_currency_call
    by_cases h : pyIsNa v = true
    · simp only [h, if_true]; exact ⟨_, rfl⟩
    · simp only [h, if_false, Bool.false_eq_true]
      exact tryExcept_isOk _ _

/-! ### Claim C6: inclusive rating bounds at the two call sites -/

/-- The book-rating call site (books_films_reviews_loader.py:219):
`_safe_float(..., lo=0, hi=5)`. -/
def book_avg_rating (v : PyVal) : Option PFloat := safe_float v (some 0) (some 5)

/-- The movie-rating call site (books_films_reviews_loader.py:191):
`_safe_float(..., lo=0, hi=10)`. -/
def movie_vote_average (v : PyVal) : Option PFloat := safe_float v (some 0) (some 10)

/-- C6: the rating bounds are inclusive: values in `[0, 5]` (books) and
`[0, 10]` (movies) are accepted unchanged, values strictly above the upper
bound are rejected as `None`. -/
theorem C6_rating_bounds :
    (∀ q : ℚ, 0 ≤ q → q ≤ 5 → book_avg_rating (.float (.num q)) = some (.num q)) ∧
    (∀ q : ℚ, 5 < q → book_avg_rating (.float (.num q)) = Option.none) ∧
    (∀ q : ℚ, 0 ≤ q → q ≤ 10 → movie_vote_average (.float (.num q)) = some (.num q)) ∧
    (∀ q : ℚ, 10 < q → movie_vote_average (.float (.num q)) = Option.none) := by
  refine ⟨?_, ?_, ?_, ?_⟩
  · intro q h0 h5
    simp [book_avg_rating, safe_float, safe_float_call, safe_float_body, tryExcept,
      pyFloat, pfLtQ, pfGtQ, not_lt.mpr h0, not_lt.mpr h5]
  · intro q h5
    have h0 : ¬ q < 0 := not_lt.mpr (le_of_lt (lt_trans (by norm_num) h5))
    simp [book_avg_rating, safe_float, safe_float_call, safe_float_body, tryExcept,
      pyFloat, pfLtQ, pfGtQ, h0, h5]
  · intro q h0 h10
    simp [movie_vote_average, safe_float, safe_float_call, safe_float_body, tryExcept,
      pyFloat, pfLtQ, pfGtQ, not_lt.mpr h0, not_lt.mpr h10]
  · intro q h10
    have h0 : ¬ q < 0 := not_lt.mpr (le_of_lt (lt_trans (by norm_num) h10))
    simp [movie_vote_average, safe_float, safe_float_call, safe_float_body, tryExcept,
      pyFloat, pfLtQ, pfGtQ, h0, h10]

/-- C6 witness: 5.0 accepted, 5.1 rejected; 10.0 accepted, 10.1 rejected. -/
theorem C6_witness :
    book_avg_rating (.float (.num 5)) = some (.num 5) ∧
    book_avg_rating (.float (.num (mkRat 51 10))) = Option.none ∧
    movie_vote_average (.float (.num 10)) = some (.num 10) ∧
    movie_vote_average (.float (.num (mkRat 101 10))) = Option.none :=
  ⟨C6_rating_bounds.1 5 (by decide) (by decide),
   C6_rating_bounds.2.1 (mkRat 51 10) (by decide),
   C6_rating_bounds.2.2.1 10 (by decide) (by decide),
   C6_rating_bounds.2.2.2 (mkRat 101 10) (by decide)⟩

/-! ### Claim C9: the date surrogate key -/

/-- C9: the date-dimension surrogate key equals
`year*10000 + month*100 + day` and is a pure (deterministic) function of the
date. -/
theorem C9_date_sk_formula :
    (∀ d : PDate, date_to_sk d = d.year * 10000 + d.month * 100 + d.day) ∧
    (∀ d1 d2 : PDate, d1 = d2 → date_to_sk d1 = date_to_sk d2) :=
  ⟨fun _ => rfl, fun _ _ h => by rw [h]⟩

/-- C9 witness at 1999-03-31. -/
theorem C9_witness :
    date_to_sk ⟨1999, 3, 31⟩ = 1999 * 10000 + 3 * 100 + 31 ∧
    date_to_sk ⟨1999, 3, 31⟩ = date_to_sk ⟨1999, 3, 31⟩ :=
  ⟨C9_date_sk_formula.1 ⟨1999, 3, 31⟩, C9_date_sk_formula.2 ⟨1999, 3, 31⟩ ⟨1999, 3, 31⟩ rfl⟩

/-! ### Claim C2: profit and ROI -/

/-- The financial-measure computation of the remote-API enricher
(tmdb_loader.py:207-210) on the raw response values:
`budget = _safe_int(data.get('budget'))`, `revenue = _safe_int(...)`,
then profit and ROI with the `budget > 0` guard. -/
def tmdb_movie_financials (budget_raw revenue_raw : PyVal) :
    Option Int × Option Int × Option Int × Option ℚ :=
  (safe_int budget_raw, safe_int revenue_raw,
   tmdb_profit (safe_int budget_raw) (safe_int revenue_raw),
   tmdb_roi (tmdb_profit (safe_int budget_raw) (safe_int revenue_raw)) (safe_int budget_raw))

/-- C2 counterexample: in the remote-API enricher a response with budget
`-1` and revenue `0` yields a known, nonzero budget and a computed profit of
`1`, yet ROI is left unset, because the guard there (tmdb_loader.py:210) is
`budget > 0`, not `budget != 0` — so ROI is not set "exactly when profit is
computed and budget is known and nonzero". -/
theorem C2_counterexample :
    tmdb_movie_financials (.int (-1)) (.int 0)
      = (some (-1), some 0, some 1, Option.none) ∧
    ((-1 : Int) ≠ 0) := by
  constructor
  · decide
  · decide

/-- C2 (amended): in both loaders `profit = revenue - budget` exactly when
both are known, else unset; the base loader sets ROI exactly when profit is
computed and the budget is nonzero, while the remote-API enricher sets ROI
exactly when profit is computed and the budget is strictly positive (a
negative budget leaves ROI unset there); ROI is unset whenever the budget is
zero, and neither measure is ever defaulted to zero. -/
theorem C2_derived_measures :
    (∀ b r : Int, bfr_profit (some b) (some r) = some (r - b) ∧
      tmdb_profit (some b) (some r) = some (r - b)) ∧
    (∀ b : Option Int, bfr_profit b Option.none = Option.none ∧
      bfr_profit Option.none b = Option.none ∧
      tmdb_profit b Option.none = Option.none ∧
      tmdb_profit Option.none b = Option.none) ∧
    (∀ p b : Int, b ≠ 0 → bfr_roi (some p) (some b) = some ((p : ℚ) / (b : ℚ) * 100)) ∧
    (∀ p : Int, bfr_roi (some p) (some 0) = Option.none) ∧
    (∀ p b : Int, 0 < b → tmdb_roi (some p) (some b) = some ((p : ℚ) / (b : ℚ) * 100)) ∧
    (∀ p b : Int, b ≤ 0 → tmdb_roi (some p) (some b) = Option.none) ∧
    (∀ b : Option Int, bfr_roi Option.none b = Option.none ∧
      tmdb_roi Option.none b = Option.none ∧
      bfr_roi b Option.none = Option.none ∧
      tmdb_roi b Option.none = Option.none) := by
  refine ⟨fun b r => ⟨rfl, rfl⟩, ?_, ?_, ?_, ?_, ?_, ?_⟩
  · intro b
    refine ⟨?_, rfl, ?_, rfl⟩ <;> cases b <;> rfl
  · intro p b hb
    simp [bfr_roi, hb]
  · intro p
    simp [bfr_roi]
  · intro p b hb
    simp [tmdb_roi, hb]
  · intro p b hb
    simp [tmdb_roi, not_lt.mpr hb]
  · intro b
    refine ⟨rfl, rfl, ?_, ?_⟩ <;> cases b <;> rfl

/-- C2 witness: concrete profits and ROIs. -/
theorem C2_witness :
    bfr_profit (some 5) (some 7) = some 2 ∧
    bfr_roi (some 1) (some 2) = some ((1 : ℚ) / (2 : ℚ) * 100) ∧
    tmdb_roi (some 1) (some 2) = some ((1 : ℚ) / (2 : ℚ) * 100) ∧
    tmdb_roi (some 1) (some (-2)) = Option.none ∧
    bfr_roi (some 1) (some 0) = Option.none :=
  ⟨by have h := (C2_derived_measures.1 5 7).1; simpa using h,
   C2_derived_measures.2.2.1 1 2 (by decide),
   C2_derived_measures.2.2.2.2.1 1 2 (by decide),
   C2_derived_measures.2.2.2.2.2.1 1 (-2) (by decide),
   C2_derived_measures.2.2.2.1 1⟩

/-! ### Claim C4: remote-system id derivation -/

/-- C4 counterexample: the movie enricher feeds `_get_tmdb_id` the bare
numeric ids stored in `Dim_Movie` (e.g. `"0133093"`, the key derived from
`"tt0133093"`); `_get_tmdb_id` prefixes such a 7-digit id with the *person*
prefix `nm` and issues the find call reading `person_results` — the lookup
is not rejected, and the prefix applied is not the movie-type one. -/
theorem C4_counterexample :
    derive_movie_id_source_from_imdb (.str "tt0133093") = some "0133093" ∧
    derive_tmdb_external_id "0133093" "imdb_id" = some ("nm0133093", "person_results") := by
  exact ⟨by decide, by decide⟩

/-- C4 (amended): `_get_tmdb_id` never rejects a lookup for a prefix/type
contradiction — only an empty id aborts without issuing a call; for an
unprefixed id the prefix is chosen by the shape of the id (digit-only ids of
length ≥ 7 receive the person prefix `nm`, shorter ones the movie prefix
`tt`), not by the entity type of the caller; and the results key consulted
is `person_results` exactly when the id finally sent starts with `nm`. -/
theorem C4_remote_id_derivation :
    (∀ s t : String, derive_tmdb_external_id s t = Option.none ↔ s = "") ∧
    (∀ s : String, pyIsDigitStr s = true → 7 ≤ s.length →
      derive_tmdb_external_id s "imdb_id" = some ("nm" ++ zfill s 7, "person_results")) ∧
    (∀ s : String, pyIsDigitStr s = true → s.length < 7 →
      derive_tmdb_external_id s "imdb_id" = some ("tt" ++ zfill s 7, "movie_results")) := by
  refine ⟨?_, ?_, ?_⟩
  · intro s t
    constructor
    · intro h
      by_cases he : s.data.isEmpty
      · exact String.ext (List.isEmpty_iff.mp he)
      · simp [derive_tmdb_external_id, he] at h
    · intro h; subst h; rfl
  · intro s hdig hlen
    obtain ⟨c, cs, hs⟩ : ∃ c cs, s.data = c :: cs := by
      cases h : s.data with
      | nil => rw [pyIsDigitStr, h] at hdig; simp at hdig
      | cons c cs => exact ⟨c, cs, rfl⟩
    have hc : c.isDigit = true := by
      have h2 := hdig
      rw [pyIsDigitStr, hs] at h2
      simp [List.all_cons] at h2
      exact h2.1
    have hct : ¬ ('t' = c) := fun h => digit_ne_t hc h.symm
    have hcn : ¬ ('n' = c) := fun h => digit_ne_n hc h.symm
    have htt : pyStartsWith s "tt" = false := by
      simp [pyStartsWith, hs, leadsWith, hct]
    have hnm : pyStartsWith s "nm" = false := by
      simp [pyStartsWith, hs, leadsWith, hcn]
    have hres : pyStartsWith ("nm" ++ zfill s 7) "nm" = true := by
      have hd : ("nm" ++ zfill s 7).data = 'n' :: 'm' :: (zfill s 7).data := by
        simp [String.data_append]
      simp [pyStartsWith, hd, leadsWith]
    have hne : s.data.isEmpty = false := by simp [hs]
    simp [derive_tmdb_external_id, hne, htt, hnm, hdig, hlen, hres]
  · intro s hdig hlen
    obtain ⟨c, cs, hs⟩ : ∃ c cs, s.data = c :: cs := by
      cases h : s.data with
      | nil => rw [pyIsDigitStr, h] at hdig; simp at hdig
      | cons c cs => exact ⟨c, cs, rfl⟩
    have hc : c.isDigit = true := by
      have h2 := hdig
      rw [pyIsDigitStr, hs] at h2
      simp [List.all_cons] at h2
      exact h2.1
    have hct : ¬ ('t' = c) := fun h => digit_ne_t hc h.symm
    have hcn : ¬ ('n' = c) := fun h => digit_ne_n hc h.symm
    have htt : pyStartsWith s "tt" = false := by
      simp [pyStartsWith, hs, leadsWith, hct]
    have hnm : pyStartsWith s "nm" = false := by
      simp [pyStartsWith, hs, leadsWith, hcn]
    have hres : pyStartsWith ("tt" ++ zfill s 7) "nm" = false := by
      have hd : ("tt" ++ zfill s 7).data = 't' :: 't' :: (zfill s 7).data := by
        simp [String.data_append]
      simp [pyStartsWith, hd, leadsWith]
    have hne : s.data.isEmpty = false := by simp [hs]
    simp [derive_tmdb_external_id, hne, htt, hnm, hdig, not_le.mpr hlen, hres]

/-- C4 witness: a 7-digit id gets the `nm` prefix and a person-results
lookup; a 6-digit id gets the `tt` prefix and a movie-results lookup; only
the empty id is rejected. -/
theorem C4_witness :
    derive_tmdb_external_id "0133093" "imdb_id" = some ("nm" ++ zfill "0133093" 7, "person_results") ∧
    derive_tmdb_external_id "133093" "imdb_id" = some ("tt" ++ zfill "133093" 7, "movie_results") ∧
    (derive_tmdb_external_id "" "imdb_id" = Option.none ↔ ("" : String) = "") :=
  ⟨C4_remote_id_derivation.2.1 "0133093" (by decide) (by decide),
   C4_remote_id_derivation.2.2 "133093" (by decide) (by decide),
   C4_remote_id_derivation.1 "" "imdb_id"⟩

/-! ### Generic dimension upsert

A dimension table is a list of rows (surrogate key, natural key, attributes)
plus the next value of the surrogate-key sequence.  `Dim.upsert` models
`INSERT ... ON CONFLICT (natural key) DO UPDATE ... RETURNING sk`: a fresh
row with attributes `ins` when the key is absent, otherwise the conflict
update `u` applied to the attributes of the (unique) row carrying the key;
the surrogate key is reported either way, so the loader's
`RETURNING`-was-null fallback lookup is never taken under `DO UPDATE`.
(A real sequence may burn values on conflicting inserts; the model advances
`next` only for fresh rows — no claim depends on the numeric value of a
surrogate key.) -/

structure DimRow (α : Type) where
  sk : Nat
  key : String
  attr : α
deriving DecidableEq

structure Dim (α : Type) where
  rows : List (DimRow α)
  next : Nat
deriving DecidableEq

def updFirst {α : Type} (k : String) (u : α → α) :
    List (DimRow α) → Option (Nat × List (DimRow α))
  | [] => Option.none
  | r :: rs =>
    if r.key = k then some (r.sk, ⟨r.sk, r.key, u r.attr⟩ :: rs)
    else
      match updFirst k u rs with
      | some (sk, rs') => some (sk, r :: rs')
      | Option.none => Option.none

def Dim.upsert {α : Type} (d : Dim α) (k : String) (ins : α) (u : α → α) : Nat × Dim α :=
  match updFirst k u d.rows with
  | some (sk, rows') => (sk, ⟨rows', d.next⟩)
  | Option.none => (d.next, ⟨d.rows ++ [⟨d.next, k, ins⟩], d.next + 1⟩)

def dimKeys {α : Type} (d : Dim α) : List String := d.rows.map DimRow.key

/-- The sequential upsert loop of a load run, also accumulating the
natural-key → surrogate-key dict the loader builds. -/
def upsertSeq {α ι : Type} (kf : ι → String) (ins : ι → α) (u : ι → α → α) :
    List ι → Dim α → Dim α × List (String × Nat)
  | [], d => (d, [])
  | i :: is, d =>
    ((upsertSeq kf ins u is (Dim.upsert d (kf i) (ins i) (u i)).2).1,
     (kf i, (Dim.upsert d (kf i) (ins i) (u i)).1)
       :: (upsertSeq kf ins u is (Dim.upsert d (kf i) (ins i) (u i)).2).2)

theorem updFirst_eq_none {α : Type} (k : String) (u : α → α) :
    ∀ rows : List (DimRow α), updFirst k u rows = Option.none ↔ ∀ r ∈ rows, r.key ≠ k := by
  intro rows
  induction rows with
  | nil => simp [updFirst]
  | cons r rs ih =>
    constructor
    · intro h x hx
      by_cases hk : r.key = k
      · simp [updFirst, hk] at h
      · simp only [updFirst, hk, if_false] at h
        cases h2 : updFirst k u rs with
        | some p => rw [h2] at h; simp at h
        | none =>
          rcases List.mem_cons.mp hx with hx | hx
          · subst hx; exact hk
          · exact (ih.mp h2) x hx
    · intro h
      have hk : r.key ≠ k := h r (List.mem_cons_self r rs)
      have h2 : updFirst k u rs = Option.none :=
        ih.mpr (fun x hx => h x (List.mem_cons_of_mem r hx))
      simp [updFirst, hk, h2]

theorem updFirst_spec {α : Type} (k : String) (u : α → α) :
    ∀ (rows : List (DimRow α)) (sk : Nat) (rows' : List (DimRow α)),
      updFirst k u rows = some (sk, rows') →
      ∃ pre r post, rows = pre ++ r :: post ∧ (∀ x ∈ pre, x.key ≠ k) ∧ r.key = k ∧
        sk = r.sk ∧ rows' = pre ++ ⟨r.sk, r.key, u r.attr⟩ :: post := by
  intro rows
  induction rows with
  | nil => intro sk rows' h; simp [updFirst] at h
  | cons r rs ih =>
    intro sk rows' h
    by_cases hk : r.key = k
    · simp only [updFirst, hk, if_true, Option.some.injEq, Prod.mk.injEq] at h
      exact ⟨[], r, rs, by simp, by simp, hk, h.1.symm, by rw [← h.2, hk]; simp⟩
    · simp only [updFirst, hk, if_false] at h
      cases h2 : updFirst k u rs with
      | none => rw [h2] at h; exact absurd h (by simp)
      | some p =>
        rw [h2] at h
        obtain ⟨sk0, rs0⟩ := p
        simp only [Option.some.injEq, Prod.mk.injEq] at h
        obtain ⟨pre, r0, post, e1, e2, e3, e4, e5⟩ := ih sk0 rs0 h2
        refine ⟨r :: pre, r0, post, by simp [e1], ?_, e3, by rw [← h.1]; exact e4, ?_⟩
        · intro x hx
          rcases List.mem_cons.mp hx with hx | hx
          · subst hx; exact hk
          · exact e2 x hx
        · rw [← h.2, e5]; simp

/-- A row the conflict update `u` leaves unchanged, with key `k` and
surrogate key `sk`. -/
def FixedRow {α : Type} (d : Dim α) (k : String) (sk : Nat) (u : α → α) : Prop :=
  ∃ a, (⟨sk, k, a⟩ : DimRow α) ∈ d.rows ∧ u a = a

theorem nodup_key_unique {α : Type} {rows : List (DimRow α)}
    (h : (rows.map DimRow.key).Nodup) {r1 r2 : DimRow α}
    (h1 : r1 ∈ rows) (h2 : r2 ∈ rows) (hk : r1.key = r2.key) : r1 = r2 :=
  List.inj_on_of_nodup_map h h1 h2 hk

theorem upsert_keys_nodup {α : Type} (d : Dim α) (k : String) (ins : α) (u : α → α)
    (h : (dimKeys d).Nodup) : (dimKeys (Dim.upsert d k ins u).2).Nodup := by
  unfold Dim.upsert
  cases h2 : updFirst k u d.rows with
  | some p =>
    obtain ⟨sk, rows'⟩ := p
    obtain ⟨pre, r, post, e1, e2, e3, e4, e5⟩ := updFirst_spec k u d.rows sk rows' h2
    have hkeys : rows'.map DimRow.key = d.rows.map DimRow.key := by
      rw [e5, e1]; simp
    simpa [dimKeys, hkeys] using h
  | none =>
    have hk : ∀ r ∈ d.rows, r.key ≠ k := (updFirst_eq_none k u d.rows).mp h2
    have hnotin : k ∉ d.rows.map DimRow.key := by
      intro hmem
      obtain ⟨r, hr, hrk⟩ := List.mem_map.mp hmem
      exact hk r hr hrk
    simp only [dimKeys, List.map_append, List.map_cons, List.map_nil]
    exact List.Nodup.append h (List.nodup_singleton k)
      (by intro x hx hy; simp at hy; subst hy; exact hnotin hx)

theorem upsert_fixed_self {α : Type} (d : Dim α) (k : String) (ins : α) (u : α → α)
    (hII : u ins = ins) (hUU : ∀ a, u (u a) = u a) :
    FixedRow (Dim.upsert d k ins u).2 k (Dim.upsert d k ins u).1 u := by
  unfold Dim.upsert
  cases h2 : updFirst k u d.rows with
  | some p =>
    obtain ⟨sk, rows'⟩ := p
    obtain ⟨pre, r, post, e1, e2, e3, e4, e5⟩ := updFirst_spec k u d.rows sk rows' h2
    refine ⟨u r.attr, ?_, hUU r.attr⟩
    rw [e5, e4, ← e3]
    exact List.mem_append_right _ (List.mem_cons_self _ _)
  | none =>
    exact ⟨ins, List.mem_append_right _ (List.mem_cons_self _ _), hII⟩

theorem upsert_preserves_fixed_ne {α : Type} (d : Dim α) (k : String) (ins : α)
    (u : α → α) (k0 : String) (sk0 : Nat) (u0 : α → α)
    (hne : k0 ≠ k) (hf : FixedRow d k0 sk0 u0) :
    FixedRow (Dim.upsert d k ins u).2 k0 sk0 u0 := by
  obtain ⟨a, ha, hua⟩ := hf
  unfold Dim.upsert
  cases h2 : updFirst k u d.rows with
  | some p =>
    obtain ⟨sk, rows'⟩ := p
    obtain ⟨pre, r, post, e1, e2, e3, e4, e5⟩ := updFirst_spec k u d.rows sk rows' h2
    refine ⟨a, ?_, hua⟩
    rw [e5]
    rw [e1] at ha
    rcases List.mem_append.mp ha with h | h
    · exact List.mem_append_left _ h
    · rcases List.mem_cons.mp h with h | h
      · exfalso
        have hk0 : k0 = r.key := congrArg DimRow.key h
        exact hne (hk0.trans e3)
      · exact List.mem_append_right _ (List.mem_cons_of_mem _ h)
  | none =>
    exact ⟨a, List.mem_append_left _ ha, hua⟩

theorem upsert_preserves_fixed_same {α : Type} (d : Dim α) (k : String) (ins : α)
    (u : α → α) (sk0 : Nat)
    (hnd : (dimKeys d).Nodup) (hf : FixedRow d k sk0 u) :
    FixedRow (Dim.upsert d k ins u).2 k sk0 u := by
  obtain ⟨a, ha, hua⟩ := hf
  unfold Dim.upsert
  cases h2 : updFirst k u d.rows with
  | some p =>
    obtain ⟨sk, rows'⟩ := p
    obtain ⟨pre, r, post, e1, e2, e3, e4, e5⟩ := updFirst_spec k u d.rows sk rows' h2
    have hrmem : r ∈ d.rows := by
      rw [e1]; exact List.mem_append_right _ (List.mem_cons_self _ _)
    have hr : (⟨sk0, k, a⟩ : DimRow α) = r :=
      nodup_key_unique hnd ha hrmem (by simp [e3])
    have hrow : (⟨r.sk, r.key, u r.attr⟩ : DimRow α) = ⟨sk0, k, a⟩ := by
      rw [← hr]; simp [hua]
    refine ⟨a, ?_, hua⟩
    rw [e5, hrow]
    exact List.mem_append_right _ (List.mem_cons_self _ _)
  | none =>
    exact absurd rfl (((updFirst_eq_none k u d.rows).mp h2) _ ha)

theorem upsert_stable {α : Type} (d : Dim α) (k : String) (ins : α) (u : α → α)
    (sk0 : Nat) (hnd : (dimKeys d).Nodup) (hf : FixedRow d k sk0 u) :
    Dim.upsert d k ins u = (sk0, d) := by
  obtain ⟨a, ha, hua⟩ := hf
  unfold Dim.upsert
  cases h2 : updFirst k u d.rows with
  | none => exact absurd rfl (((updFirst_eq_none k u d.rows).mp h2) _ ha)
  | some p =>
    obtain ⟨sk, rows'⟩ := p
    obtain ⟨pre, r, post, e1, e2, e3, e4, e5⟩ := updFirst_spec k u d.rows sk rows' h2
    have hrmem : r ∈ d.rows := by
      rw [e1]; exact List.mem_append_right _ (List.mem_cons_self _ _)
    have hr : (⟨sk0, k, a⟩ : DimRow α) = r :=
      nodup_key_unique hnd ha hrmem (by simp [e3])
    have hrow : (⟨r.sk, r.key, u r.attr⟩ : DimRow α) = r := by
      rw [← hr]; simp [hua]
    have hrows : rows' = d.rows := by rw [e5, hrow, ← e1]
    have hsk : sk = sk0 := by rw [e4, ← hr]
    rw [hrows, hsk]

theorem upsertSeq_keys_nodup {α ι : Type} (kf : ι → String) (ins : ι → α)
    (u : ι → α → α) (is : List ι) :
    ∀ d : Dim α, (dimKeys d).Nodup → (dimKeys (upsertSeq kf ins u is d).1).Nodup := by
  induction is with
  | nil => intro d h; exact h
  | cons i is ih =>
    intro d h
    exact ih _ (upsert_keys_nodup d (kf i) (ins i) (u i) h)

theorem upsertSeq_preserves_fixed {α ι : Type} (kf : ι → String) (ins : ι → α)
    (u : ι → α → α) (is : List ι) (k0 : String) (sk0 : Nat) (u0 : α → α)
    (hne : ∀ i ∈ is, kf i ≠ k0) :
    ∀ d : Dim α, FixedRow d k0 sk0 u0 → FixedRow (upsertSeq kf ins u is d).1 k0 sk0 u0 := by
  induction is with
  | nil => intro d h; exact h
  | cons i is ih =>
    intro d h
    exact ih (fun j hj => hne j (List.mem_cons_of_mem i hj)) _
      (upsert_preserves_fixed_ne d (kf i) (ins i) (u i) k0 sk0 u0
        (Ne.symm (hne i (List.mem_cons_self i is))) h)

theorem upsertSeq_stable {α ι : Type} (kf : ι → String) (ins : ι → α) (u : ι → α → α)
    (is : List ι) :
    ∀ d : Dim α, (dimKeys d).Nodup → (is.map kf).Nodup →
    (∀ i ∈ is, u i (ins i) = ins i) → (∀ i ∈ is, ∀ a, u i (u i a) = u i a) →
    upsertSeq kf ins u is ((upsertSeq kf ins u is d).1) = upsertSeq kf ins u is d := by
  induction is with
  | nil => intro d _ _ _ _; rfl
  | cons i is ih =>
    intro d hnd hkeys hII hUU
    have hmem : i ∈ i :: is := List.mem_cons_self i is
    have hnd' : (dimKeys (Dim.upsert d (kf i) (ins i) (u i)).2).Nodup :=
      upsert_keys_nodup d (kf i) (ins i) (u i) hnd
    have hfix0 : FixedRow (Dim.upsert d (kf i) (ins i) (u i)).2 (kf i)
        (Dim.upsert d (kf i) (ins i) (u i)).1 (u i) :=
      upsert_fixed_self d (kf i) (ins i) (u i) (hII i hmem) (hUU i hmem)
    have hne : ∀ j ∈ is, kf j ≠ kf i := by
      intro j hj heq
      exact (List.nodup_cons.mp hkeys).1 (List.mem_map.mpr ⟨j, hj, heq⟩)
    have hfix1 : FixedRow (upsertSeq kf ins u is (Dim.upsert d (kf i) (ins i) (u i)).2).1
        (kf i) (Dim.upsert d (kf i) (ins i) (u i)).1 (u i) :=
      upsertSeq_preserves_fixed kf ins u is (kf i) _ (u i) hne _ hfix0
    have hnd1 : (dimKeys (upsertSeq kf ins u is (Dim.upsert d (kf i) (ins i) (u i)).2).1).Nodup :=
      upsertSeq_keys_nodup kf ins u is _ hnd'
    have hstep : Dim.upsert (upsertSeq kf ins u is (Dim.upsert d (kf i) (ins i) (u i)).2).1
        (kf i) (ins i) (u i)
        = ((Dim.upsert d (kf i) (ins i) (u i)).1,
           (upsertSeq kf ins u is (Dim.upsert d (kf i) (ins i) (u i)).2).1) :=
      upsert_stable _ (kf i) (ins i) (u i) _ hnd1 hfix1
    have hih : upsertSeq kf ins u is
        ((upsertSeq kf ins u is (Dim.upsert d (kf i) (ins i) (u i)).2).1)
        = upsertSeq kf ins u is (Dim.upsert d (kf i) (ins i) (u i)).2 :=
      ih _ hnd' (List.nodup_cons.mp hkeys).2
        (fun j hj => hII j (List.mem_cons_of_mem i hj))
        (fun j hj => hUU j (List.mem_cons_of_mem i hj))
    simp only [upsertSeq, hstep, hih]

/-! ### Sorting and deduplication helpers

`sorted(list(set(...)))` and `sorted({...})` in the loader: deduplicate,
then sort.  Python compares strings (and tuples of strings) by code points;
`lexLe`/`strLe` model that order on the character lists. -/

def lexLe : List Char → List Char → Bool
  | [], _ => true
  | _ :: _, [] => false
  | a :: as, b :: bs => if a = b then lexLe as bs else decide (a < b)

def strLe (s t : String) : Bool := lexLe s.data t.data

def insertSorted {α : Type} (le : α → α → Bool) (x : α) : List α → List α
  | [] => [x]
  | y :: ys => if le x y then x :: y :: ys else y :: insertSorted le x ys

def insertionSort {α : Type} (le : α → α → Bool) : List α → List α
  | [] => []
  | x :: xs => insertSorted le x (insertionSort le xs)

/-- Deduplication (the `set(...)` constructions; which duplicate survives is
irrelevant because the result is sorted afterwards). -/
def dedupKF {α : Type} [DecidableEq α] : List α → List α
  | [] => []
  | x :: xs => if x ∈ dedupKF xs then dedupKF xs else x :: dedupKF xs

theorem insertSorted_perm {α : Type} (le : α → α → Bool) (x : α) :
    ∀ l : List α, (insertSorted le x l).Perm (x :: l) := by
  intro l
  induction l with
  | nil => simp [insertSorted]
  | cons y ys ih =>
    by_cases h : le x y = true
    · simp [insertSorted, h]
    · simp only [insertSorted, h, if_false, Bool.false_eq_true]
      exact (ih.cons y).trans (List.Perm.swap x y ys)

theorem insertionSort_perm {α : Type} (le : α → α → Bool) :
    ∀ l : List α, (insertionSort le l).Perm l := by
  intro l
  induction l with
  | nil => simp [insertionSort]
  | cons x xs ih =>
    exact (insertSorted_perm le x (insertionSort le xs)).trans (ih.cons x)

theorem dedupKF_nodup {α : Type} [DecidableEq α] : ∀ l : List α, (dedupKF l).Nodup := by
  intro l
  induction l with
  | nil => simp [dedupKF]
  | cons x xs ih =>
    by_cases h : x ∈ dedupKF xs
    · simpa [dedupKF, h] using ih
    · simp [dedupKF, h, ih]

theorem sortedDedup_nodup {α : Type} [DecidableEq α] (le : α → α → Bool) (l : List α) :
    (insertionSort le (dedupKF l)).Nodup :=
  ((insertionSort_perm le (dedupKF l)).nodup_iff).mpr (dedupKF_nodup l)

/-! ### The warehouse star schema (dw_books_movies) -/

structure BookAttrs where
  isbn : Option String
  title : String
  author : Option String
  publisher : Option String
  publication_date : Option PDate
  language_code : Option String
  num_pages : Option Int
deriving DecidableEq

structure MovieAttrs where
  movie_title_source : String
  release_date : Option PDate
  release_year : Option Int
  distributor : Option String
  genre : Option String
  director : Option String
  tmdb_popularity : Option PFloat
deriving DecidableEq

structure ActorAttrs where
  name : String
  birth_year : Option Int
  primary_profession : Option String
  popularity_score : Option PFloat
deriving DecidableEq

/-- `Fact_Book_Adaptation` at the grain (Book_SK, Movie_SK).  Numeric columns
that receive Python ints in one loader and floats in another are `PFloat`. -/
structure FactRow where
  book_sk : Nat
  movie_sk : Nat
  movie_release_date_sk : Option Int
  box_office_gross : Option PFloat
  tickets_sold : Option Int
  production_budget : Option Int
  profit : Option Int
  roi : Option ℚ
  book_average_rating : Option PFloat
  book_ratings_count : Option Int
  book_text_reviews_count : Option Int
  movie_average_rating : Option PFloat
  movie_review_count : Option Int
deriving DecidableEq

/-- The warehouse state.  `Dim_Date` rows are keyed by `Date_SK` and store
the full date (the remaining calendar columns of the source insert are SQL
functions of that date).  `Bridge_Movie_Actor` rows are
(Movie_SK, Actor_SK, Role). -/
structure DW where
  books : Dim BookAttrs
  movies : Dim MovieAttrs
  actors : Dim ActorAttrs
  dates : List (Int × PDate)
  bridge : List (Nat × Nat × Option String)
  facts : List FactRow
deriving DecidableEq

/-! ### In-memory inputs of the base load stage

These are the values the loader has built from the SQLite source by line
264 of books_films_reviews_loader.py: the raw normalized link pairs (before
the `sorted(list(set(...)))` of line 267), the `book_measures` and
`imdb_to_movie` dicts (with already-normalized field values), the genre and
director crosswalks, and the actor structures. -/

structure BookMeasures where
  title : Option String
  authors : Option String
  isbn : Option String
  pub_date : Option PDate
  language_code : Option String
  num_pages : Option Int
  avg_rating : Option PFloat
  ratings_count : Option Int
  text_reviews_count : Option Int
deriving DecidableEq

structure MovieSrc where
  imdb_id : String
  title : Option String
  release_date : Option PDate
  vote_average : Option PFloat
  vote_count : Option Int
  distributor : Option String
  genre : Option String
  director : Option String
  budget : Option Int
  revenue : Option Int
deriving DecidableEq

structure LoadInput where
  links_raw : List (String × String)
  book_measures : List (String × BookMeasures)
  imdb_to_movie : List (String × MovieSrc)
  imdb_to_genre : List (String × String)
  imdb_to_director : List (String × String)
  unique_actors : List (String × String)
  actors_data : List (String × String × String × Option String)
deriving DecidableEq

/-- Python `x or y` on optional strings: an empty string is falsy. -/
def pyOrStr (x y : Option String) : Option String :=
  match x with
  | some s => if s.data.isEmpty then y else some s
  | Option.none => y

/-- `x[:n] if x else None`. -/
def truthyTake (n : Nat) (x : Option String) : Option String :=
  match x with
  | some s => if s.data.isEmpty then Option.none else some (s.take n)
  | Option.none => Option.none

/-- `(x or dflt)[:n]` for the title parameters. -/
def orDefaultTake (x : Option String) (dflt : String) (n : Nat) : String :=
  (match x with
   | some s => if s.data.isEmpty then dflt else s
   | Option.none => dflt).take n

/-- `str(x).upper()[:3] if x else None` for the language code. -/
def langCode3 (x : Option String) : Option String :=
  match x with
  | some s =>
      if s.data.isEmpty then Option.none
      else some ((String.mk (s.data.map Char.toUpper)).take 3)
  | Option.none => Option.none

/-- Python `if not sk` on a dict lookup: `None` and surrogate key `0` are
falsy. -/
def truthySK : Option Nat → Bool
  | some n => n != 0
  | Option.none => false

/-- `sorted(list(set(norm_links)))` (books_films_reviews_loader.py:267). -/
def normLinks (raw : List (String × String)) : List (String × String) :=
  insertionSort (fun a b => if a.1 = b.1 then strLe a.2 b.2 else strLe a.1 b.1) (dedupKF raw)

/-- `sorted({b for b, _ in norm_links})` (line 292). -/
def loadBookKeys (inp : LoadInput) : List String :=
  insertionSort strLe (dedupKF ((normLinks inp.links_raw).map Prod.fst))

/-- `sorted({m for _, m in norm_links})` (line 323). -/
def loadMovieKeys (inp : LoadInput) : List String :=
  insertionSort strLe (dedupKF ((normLinks inp.links_raw).map Prod.snd))

/-- The `Dim_Book` insert parameters (books_films_reviews_loader.py:294-315);
`Publisher` is inserted as NULL and never updated on conflict. -/
def bookIns (inp : LoadInput) (k : String) : BookAttrs :=
  { isbn := (inp.book_measures.lookup k).bind BookMeasures.isbn
  , title := orDefaultTake ((inp.book_measures.lookup k).bind BookMeasures.title) ("Book " ++ k) 500
  , author := truthyTake 500 ((inp.book_measures.lookup k).bind BookMeasures.authors)
  , publisher := Option.none
  , publication_date := (inp.book_measures.lookup k).bind BookMeasures.pub_date
  , language_code := langCode3 ((inp.book_measures.lookup k).bind BookMeasures.language_code)
  , num_pages := (inp.book_measures.lookup k).bind BookMeasures.num_pages }

/-- The `Dim_Book` `ON CONFLICT ... DO UPDATE SET` list (lines 299-305):
every inserted column except `Publisher`. -/
def bookUpd (inp : LoadInput) (k : String) (old : BookAttrs) : BookAttrs :=
  { old with
    isbn := (inp.book_measures.lookup k).bind BookMeasures.isbn
  , title := orDefaultTake ((inp.book_measures.lookup k).bind BookMeasures.title) ("Book " ++ k) 500
  , author := truthyTake 500 ((inp.book_measures.lookup k).bind BookMeasures.authors)
  , publication_date := (inp.book_measures.lookup k).bind BookMeasures.pub_date
  , language_code := langCode3 ((inp.book_measures.lookup k).bind BookMeasures.language_code)
  , num_pages := (inp.book_measures.lookup k).bind BookMeasures.num_pages }

/-- The `Dim_Movie` insert parameters (lines 323-352); `TMDb_Popularity` is
not in the insert (NULL) and is never touched on conflict. -/
def movieIns (inp : LoadInput) (k : String) : MovieAttrs :=
  { movie_title_source :=
      orDefaultTake ((inp.imdb_to_movie.lookup k).bind MovieSrc.title) ("Movie tt" ++ k) 500
  , release_date := (inp.imdb_to_movie.lookup k).bind MovieSrc.release_date
  , release_year := ((inp.imdb_to_movie.lookup k).bind MovieSrc.release_date).map PDate.year
  , distributor := (inp.imdb_to_movie.lookup k).bind MovieSrc.distributor
  , genre := truthyTake 100
      (pyOrStr ((inp.imdb_to_movie.lookup k).bind MovieSrc.genre) (inp.imdb_to_genre.lookup k))
  , director := truthyTake 255
      (pyOrStr ((inp.imdb_to_movie.lookup k).bind MovieSrc.director) (inp.imdb_to_director.lookup k))
  , tmdb_popularity := Option.none }

/-- The `Dim_Movie` conflict update (lines 336-342): every inserted column. -/
def movieUpd (inp : LoadInput) (k : String) (old : MovieAttrs) : MovieAttrs :=
  { old with
    movie_title_source :=
      orDefaultTake ((inp.imdb_to_movie.lookup k).bind MovieSrc.title) ("Movie tt" ++ k) 500
  , release_date := (inp.imdb_to_movie.lookup k).bind MovieSrc.release_date
  , release_year := ((inp.imdb_to_movie.lookup k).bind MovieSrc.release_date).map PDate.year
  , distributor := (inp.imdb_to_movie.lookup k).bind MovieSrc.distributor
  , genre := truthyTake 100
      (pyOrStr ((inp.imdb_to_movie.lookup k).bind MovieSrc.genre) (inp.imdb_to_genre.lookup k))
  , director := truthyTake 255
      (pyOrStr ((inp.imdb_to_movie.lookup k).bind MovieSrc.director) (inp.imdb_to_director.lookup k)) }

/-- The `Dim_Actor` insert of the base loader (lines 375-388): only id and
`Name` (truncated to 255). -/
def actorIns (p : String × String) : ActorAttrs :=
  { name := p.2.take 255
  , birth_year := Option.none
  , primary_profession := Option.none
  , popularity_score := Option.none }

/-- The `Dim_Actor` conflict update of the base loader: only `Name`. -/
def actorUpd (p : String × String) (old : ActorAttrs) : ActorAttrs :=
  { old with name := p.2.take 255 }

/-! ### Guarded conflict-ignore insert loops

`for item in items: (derive key and row; skip if unresolvable;
INSERT ... ON CONFLICT (key) DO NOTHING)`.  `prep` yields the conflict key
and the row to insert, or `none` when the loop `continue`s; `rowKey` reads
the conflict key back off a stored row. -/

def guardedInsertFold {ι κ β : Type} [DecidableEq κ] (prep : ι → Option (κ × β))
    (rowKey : β → κ) : List ι → List β → List β
  | [], l => l
  | i :: is, l =>
    match prep i with
    | Option.none => guardedInsertFold prep rowKey is l
    | some p =>
      if l.any (fun r => rowKey r == p.1) then guardedInsertFold prep rowKey is l
      else guardedInsertFold prep rowKey is (l ++ [p.2])

/-- The `Dim_Date` loop (lines 361-372), iterating over the
`movie_src_to_sk` dict: insert the release date keyed by its deterministic
surrogate key, `ON CONFLICT (Date_SK) DO NOTHING`. -/
def datePrep (inp : LoadInput) (p : String × Nat) : Option (Int × (Int × PDate)) :=
  match (inp.imdb_to_movie.lookup p.1).bind MovieSrc.release_date with
  | some rd => some (date_to_sk rd, (date_to_sk rd, rd))
  | Option.none => Option.none

def insertDates (inp : LoadInput) (mmap : List (String × Nat)) (dates : List (Int × PDate)) :
    List (Int × PDate) :=
  guardedInsertFold (datePrep inp) Prod.fst mmap dates

/-- The `Bridge_Movie_Actor` loop (lines 390-400): resolve both surrogate
keys (`if msk and ask`, so a missing key or surrogate key 0 skips the row)
and insert `ON CONFLICT (Movie_SK, Actor_SK) DO NOTHING` with the role
truncated to 100. -/
def bridgePrep (mmap amap : List (String × Nat)) (t : String × String × String × Option String) :
    Option ((Nat × Nat) × (Nat × Nat × Option String)) :=
  if truthySK (mmap.lookup t.1) && truthySK (amap.lookup t.2.1) then
    some (((mmap.lookup t.1).getD 0, (amap.lookup t.2.1).getD 0),
          ((mmap.lookup t.1).getD 0, (amap.lookup t.2.1).getD 0, truthyTake 100 t.2.2.2))
  else Option.none

def insertBridges (inp : LoadInput) (mmap amap : List (String × Nat))
    (br : List (Nat × Nat × Option String)) : List (Nat × Nat × Option String) :=
  guardedInsertFold (bridgePrep mmap amap) (fun r => (r.1, r.2.1)) inp.actors_data br

/-- One row of the `Fact_Book_Adaptation` insert (lines 404-447): the VALUES
list, with `Tickets_Sold` NULL, revenue written into `Box_Office_Gross`, and
profit/ROI per `bfr_profit`/`bfr_roi`. -/
def buildFactRow (bsk msk : Nat) (bm : Option BookMeasures) (mm : Option MovieSrc) : FactRow :=
  { book_sk := bsk
  , movie_sk := msk
  , movie_release_date_sk := (mm.bind MovieSrc.release_date).map date_to_sk
  , box_office_gross := (mm.bind MovieSrc.revenue).map (fun i => PFloat.num (i : ℚ))
  , tickets_sold := Option.none
  , production_budget := mm.bind MovieSrc.budget
  , profit := bfr_profit (mm.bind MovieSrc.budget) (mm.bind MovieSrc.revenue)
  , roi := bfr_roi (bfr_profit (mm.bind MovieSrc.budget) (mm.bind MovieSrc.revenue))
      (mm.bind MovieSrc.budget)
  , book_average_rating := bm.bind BookMeasures.avg_rating
  , book_ratings_count := bm.bind BookMeasures.ratings_count
  , book_text_reviews_count := bm.bind BookMeasures.text_reviews_count
  , movie_average_rating := mm.bind MovieSrc.vote_average
  , movie_review_count := mm.bind MovieSrc.vote_count }

/-- The fact loop guard (lines 404-408): both surrogate keys must resolve
and be truthy, else `continue`; then
`INSERT ... ON CONFLICT (Book_SK, Movie_SK) DO NOTHING`. -/
def factPrep (inp : LoadInput) (bmap mmap : List (String × Nat)) (p : String × String) :
    Option ((Nat × Nat) × FactRow) :=
  if truthySK (bmap.lookup p.1) && truthySK (mmap.lookup p.2) then
    some ((((bmap.lookup p.1).getD 0), ((mmap.lookup p.2).getD 0)),
      buildFactRow ((bmap.lookup p.1).getD 0) ((mmap.lookup p.2).getD 0)
        (inp.book_measures.lookup p.1) (inp.imdb_to_movie.lookup p.2))
  else Option.none

def insertFacts (inp : LoadInput) (links : List (String × String))
    (bmap mmap : List (String × Nat)) (facts : List FactRow) : List FactRow :=
  guardedInsertFold (factPrep inp bmap mmap) (fun f => (f.book_sk, f.movie_sk)) links facts

/-- `load_dw_from_bfr` (books_films_reviews_loader.py:54-455) from the point
where the in-memory inputs are built: dedup+sort the links, abort unchanged
when no link resolved (line 272), else upsert `Dim_Book`, `Dim_Movie`,
`Dim_Date`, `Dim_Actor`, `Bridge_Movie_Actor` and `Fact_Book_Adaptation` in
the source's order inside one transaction. -/
def load_dw_from_bfr (inp : LoadInput) (db : DW) : DW :=
  if (normLinks inp.links_raw).isEmpty then db
  else
    DW.mk
      (upsertSeq id (bookIns inp) (bookUpd inp) (loadBookKeys inp) db.books).1
      (upsertSeq id (movieIns inp) (movieUpd inp) (loadMovieKeys inp) db.movies).1
      (upsertSeq Prod.fst actorIns actorUpd inp.unique_actors db.actors).1
      (insertDates inp
        (upsertSeq id (movieIns inp) (movieUpd inp) (loadMovieKeys inp) db.movies).2 db.dates)
      (insertBridges inp
        (upsertSeq id (movieIns inp) (movieUpd inp) (loadMovieKeys inp) db.movies).2
        (upsertSeq Prod.fst actorIns actorUpd inp.unique_actors db.actors).2 db.bridge)
      (insertFacts inp (normLinks inp.links_raw)
        (upsertSeq id (bookIns inp) (bookUpd inp) (loadBookKeys inp) db.books).2
        (upsertSeq id (movieIns inp) (movieUpd inp) (loadMovieKeys inp) db.movies).2 db.facts)

/-! ### Conflict-ignore fold lemmas -/

theorem guardedInsertFold_append {ι κ β : Type} [DecidableEq κ] (prep : ι → Option (κ × β))
    (rowKey : β → κ) (is : List ι) :
    ∀ l : List β, ∃ ext, guardedInsertFold prep rowKey is l = l ++ ext := by
  induction is with
  | nil => intro l; exact ⟨[], by simp [guardedInsertFold]⟩
  | cons i is ih =>
    intro l
    cases hp : prep i with
    | none => simpa [guardedInsertFold, hp] using ih l
    | some p =>
      by_cases hg : l.any (fun r => rowKey r == p.1) = true
      · simpa [guardedInsertFold, hp, hg] using ih l
      · obtain ⟨ext, he⟩ := ih (l ++ [p.2])
        refine ⟨p.2 :: ext, ?_⟩
        simp only [guardedInsertFold, hp, hg, if_false, Bool.false_eq_true, he,
          List.append_assoc, List.singleton_append]

theorem guardedInsertFold_any {ι κ β : Type} [DecidableEq κ] (prep : ι → Option (κ × β))
    (rowKey : β → κ) (is : List ι) (l : List β) (key : κ)
    (h : l.any (fun r => rowKey r == key) = true) :
    (guardedInsertFold prep rowKey is l).any (fun r => rowKey r == key) = true := by
  obtain ⟨ext, he⟩ := guardedInsertFold_append prep rowKey is l
  rw [he, List.any_append, h, Bool.true_or]

theorem guardedInsertFold_present {ι κ β : Type} [DecidableEq κ] (prep : ι → Option (κ × β))
    (rowKey : β → κ) (hcoh : ∀ i p, prep i = some p → rowKey p.2 = p.1) (is : List ι) :
    ∀ (l : List β) (i : ι), i ∈ is → ∀ p, prep i = some p →
      (guardedInsertFold prep rowKey is l).any (fun r => rowKey r == p.1) = true := by
  induction is with
  | nil => intro l i hi; cases hi
  | cons j is ih =>
    intro l i hi p hp
    rcases List.mem_cons.mp hi with hi | hi
    · subst hi
      simp only [guardedInsertFold, hp]
      by_cases hg : l.any (fun r => rowKey r == p.1) = true
      · rw [if_pos hg]; exact guardedInsertFold_any _ _ _ _ _ hg
      · rw [if_neg hg]
        apply guardedInsertFold_any
        simp [List.any_append, hcoh i p hp]
    · cases hpj : prep j with
      | none => simp only [guardedInsertFold, hpj]; exact ih l i hi p hp
      | some pj =>
        simp only [guardedInsertFold, hpj]
        by_cases hg : l.any (fun r => rowKey r == pj.1) = true
        · rw [if_pos hg]; exact ih l i hi p hp
        · rw [if_neg hg]; exact ih _ i hi p hp

theorem guardedInsertFold_stable {ι κ β : Type} [DecidableEq κ] (prep : ι → Option (κ × β))
    (rowKey : β → κ) (is : List ι) :
    ∀ l : List β,
      (∀ i ∈ is, ∀ p, prep i = some p → l.any (fun r => rowKey r == p.1) = true) →
      guardedInsertFold prep rowKey is l = l := by
  induction is with
  | nil => intro l _; rfl
  | cons i is ih =>
    intro l h
    cases hp : prep i with
    | none =>
      simp only [guardedInsertFold, hp]
      exact ih l (fun j hj => h j (List.mem_cons_of_mem _ hj))
    | some p =>
      have hg := h i (List.mem_cons_self i is) p hp
      simp only [guardedInsertFold, hp, hg, if_true]
      exact ih l (fun j hj => h j (List.mem_cons_of_mem _ hj))

theorem guardedInsertFold_idem {ι κ β : Type} [DecidableEq κ] (prep : ι → Option (κ × β))
    (rowKey : β → κ) (hcoh : ∀ i p, prep i = some p → rowKey p.2 = p.1) (is : List ι)
    (l : List β) :
    guardedInsertFold prep rowKey is (guardedInsertFold prep rowKey is l)
      = guardedInsertFold prep rowKey is l :=
  guardedInsertFold_stable prep rowKey is _
    (fun i hi p hp => guardedInsertFold_present prep rowKey hcoh is l i hi p hp)

theorem guardedInsertFold_nodup {ι κ β : Type} [DecidableEq κ] (prep : ι → Option (κ × β))
    (rowKey : β → κ) (hcoh : ∀ i p, prep i = some p → rowKey p.2 = p.1) (is : List ι) :
    ∀ l : List β, ((l.map rowKey).Nodup) →
      ((guardedInsertFold prep rowKey is l).map rowKey).Nodup := by
  induction is with
  | nil => intro l h; exact h
  | cons i is ih =>
    intro l h
    cases hp : prep i with
    | none => simp only [guardedInsertFold, hp]; exact ih l h
    | some p =>
      by_cases hg : l.any (fun r => rowKey r == p.1) = true
      · simp only [guardedInsertFold, hp, hg, if_true]; exact ih l h
      · simp only [guardedInsertFold, hp, hg, if_false, Bool.false_eq_true]
        apply ih
        rw [List.map_append, List.map_cons, List.map_nil]
        refine List.Nodup.append h (List.nodup_singleton _) ?_
        intro x hx hy
        simp only [List.mem_singleton] at hy
        subst hy
        rw [hcoh i p hp] at hx
        obtain ⟨r, hr, hrk⟩ := List.mem_map.mp hx
        exact hg (List.any_eq_true.mpr ⟨r, hr, by simp [hrk]⟩)

theorem guardedInsertFold_find {ι κ β : Type} [DecidableEq κ] (prep : ι → Option (κ × β))
    (rowKey : β → κ) (is : List ι) (l : List β) (p : β → Bool) (r : β)
    (h : l.find? p = some r) :
    (guardedInsertFold prep rowKey is l).find? p = some r := by
  obtain ⟨ext, he⟩ := guardedInsertFold_append prep rowKey is l
  rw [he, List.find?_append, h]
  rfl

/-! ### Conflict-update laws of the three dimension call sites -/

theorem bookUpd_ins (inp : LoadInput) (k : String) :
    bookUpd inp k (bookIns inp k) = bookIns inp k := by simp [bookUpd, bookIns]

theorem bookUpd_idem (inp : LoadInput) (k : String) (a : BookAttrs) :
    bookUpd inp k (bookUpd inp k a) = bookUpd inp k a := by simp [bookUpd]

theorem movieUpd_ins (inp : LoadInput) (k : String) :
    movieUpd inp k (movieIns inp k) = movieIns inp k := by simp [movieUpd, movieIns]

theorem movieUpd_idem (inp : LoadInput) (k : String) (a : MovieAttrs) :
    movieUpd inp k (movieUpd inp k a) = movieUpd inp k a := by simp [movieUpd]

theorem actorUpd_ins (p : String × String) : actorUpd p (actorIns p) = actorIns p := by
  simp [actorUpd, actorIns]

theorem actorUpd_idem (p : String × String) (a : ActorAttrs) :
    actorUpd p (actorUpd p a) = actorUpd p a := by simp [actorUpd]

theorem datePrep_coh (inp : LoadInput) :
    ∀ i p, datePrep inp i = some p → Prod.fst p.2 = p.1 := by
  intro i p hp
  unfold datePrep at hp
  cases h : (inp.imdb_to_movie.lookup i.1).bind MovieSrc.release_date with
  | none => rw [h] at hp; cases hp
  | some rd => rw [h] at hp; cases hp; rfl

theorem bridgePrep_coh (mmap amap : List (String × Nat)) :
    ∀ i p, bridgePrep mmap amap i = some p → (fun r => (r.1, r.2.1)) p.2 = p.1 := by
  intro i p hp
  unfold bridgePrep at hp
  by_cases hc : (truthySK (mmap.lookup i.1) && truthySK (amap.lookup i.2.1)) = true
  · rw [if_pos hc] at hp; cases hp; rfl
  · rw [if_neg hc] at hp; cases hp

theorem factPrep_coh (inp : LoadInput) (bmap mmap : List (String × Nat)) :
    ∀ i p, factPrep inp bmap mmap i = some p →
      (fun f => (f.book_sk, f.movie_sk)) p.2 = p.1 := by
  intro i p hp
  unfold factPrep at hp
  by_cases hc : (truthySK (bmap.lookup i.1) && truthySK (mmap.lookup i.2)) = true
  · rw [if_pos hc] at hp; cases hp; rfl
  · rw [if_neg hc] at hp; cases hp

/-! ### Claim C1: fact grain and idempotence of the base load -/

/-- C1: under the warehouse uniqueness invariants (unique natural keys per
dimension, unique (Book_SK, Movie_SK) per fact row, and the actor dict with
unique ids), one run of the base load keeps the fact table at one row per
(Book_SK, Movie_SK) pair — the link pairs are deduplicated (line 267) and
the fact insert conflict-ignores on the surrogate-key pair (line 434) — and
re-running the identical input is a no-op on the whole warehouse state, so
dimension and fact row counts are unchanged. -/
theorem C1_fact_grain_and_idempotence (inp : LoadInput) (db : DW)
    (hb : (dimKeys db.books).Nodup) (hm : (dimKeys db.movies).Nodup)
    (ha : (dimKeys db.actors).Nodup)
    (hf : (db.facts.map (fun f => (f.book_sk, f.movie_sk))).Nodup)
    (hu : (inp.unique_actors.map Prod.fst).Nodup) :
    ((load_dw_from_bfr inp db).facts.map (fun f => (f.book_sk, f.movie_sk))).Nodup ∧
    load_dw_from_bfr inp (load_dw_from_bfr inp db) = load_dw_from_bfr inp db := by
  by_cases hl : (normLinks inp.links_raw).isEmpty = true
  · constructor
    · simpa [load_dw_from_bfr, hl] using hf
    · simp [load_dw_from_bfr, hl]
  · have hl' : (normLinks inp.links_raw).isEmpty = false := by
      cases h : (normLinks inp.links_raw).isEmpty
      · rfl
      · exact absurd h hl
    have unf : ∀ d : DW, load_dw_from_bfr inp d = DW.mk
        (upsertSeq id (bookIns inp) (bookUpd inp) (loadBookKeys inp) d.books).1
        (upsertSeq id (movieIns inp) (movieUpd inp) (loadMovieKeys inp) d.movies).1
        (upsertSeq Prod.fst actorIns actorUpd inp.unique_actors d.actors).1
        (insertDates inp
          (upsertSeq id (movieIns inp) (movieUpd inp) (loadMovieKeys inp) d.movies).2 d.dates)
        (insertBridges inp
          (upsertSeq id (movieIns inp) (movieUpd inp) (loadMovieKeys inp) d.movies).2
          (upsertSeq Prod.fst actorIns actorUpd inp.unique_actors d.actors).2 d.bridge)
        (insertFacts inp (normLinks inp.links_raw)
          (upsertSeq id (bookIns inp) (bookUpd inp) (loadBookKeys inp) d.books).2
          (upsertSeq id (movieIns inp) (movieUpd inp) (loadMovieKeys inp) d.movies).2 d.facts) := by
      intro d
      unfold load_dw_from_bfr
      rw [hl']
      exact if_neg (by simp)
    constructor
    · rw [unf db]
      exact guardedInsertFold_nodup _ _
        (factPrep_coh inp
          (upsertSeq id (bookIns inp) (bookUpd inp) (loadBookKeys inp) db.books).2
          (upsertSeq id (movieIns inp) (movieUpd inp) (loadMovieKeys inp) db.movies).2)
        (normLinks inp.links_raw) db.facts hf
    · have HB : upsertSeq id (bookIns inp) (bookUpd inp) (loadBookKeys inp)
          ((upsertSeq id (bookIns inp) (bookUpd inp) (loadBookKeys inp) db.books).1)
          = upsertSeq id (bookIns inp) (bookUpd inp) (loadBookKeys inp) db.books :=
        upsertSeq_stable _ _ _ _ db.books hb
          (by rw [List.map_id]; exact sortedDedup_nodup strLe _)
          (fun k _ => bookUpd_ins inp k) (fun k _ a => bookUpd_idem inp k a)
      have HM : upsertSeq id (movieIns inp) (movieUpd inp) (loadMovieKeys inp)
          ((upsertSeq id (movieIns inp) (movieUpd inp) (loadMovieKeys inp) db.movies).1)
          = upsertSeq id (movieIns inp) (movieUpd inp) (loadMovieKeys inp) db.movies :=
        upsertSeq_stable _ _ _ _ db.movies hm
          (by rw [List.map_id]; exact sortedDedup_nodup strLe _)
          (fun k _ => movieUpd_ins inp k) (fun k _ a => movieUpd_idem inp k a)
      have HA : upsertSeq Prod.fst actorIns actorUpd inp.unique_actors
          ((upsertSeq Prod.fst actorIns actorUpd inp.unique_actors db.actors).1)
          = upsertSeq Prod.fst actorIns actorUpd inp.unique_actors db.actors :=
        upsertSeq_stable _ _ _ _ db.actors ha hu
          (fun p _ => actorUpd_ins p) (fun p _ a => actorUpd_idem p a)
      have HD : insertDates inp
          (upsertSeq id (movieIns inp) (movieUpd inp) (loadMovieKeys inp) db.movies).2
          (insertDates inp
            (upsertSeq id (movieIns inp) (movieUpd inp) (loadMovieKeys inp) db.movies).2 db.dates)
          = insertDates inp
            (upsertSeq id (movieIns inp) (movieUpd inp) (loadMovieKeys inp) db.movies).2 db.dates :=
        guardedInsertFold_idem _ _ (datePrep_coh inp) _ db.dates
      have HE : insertBridges inp
          (upsertSeq id (movieIns inp) (movieUpd inp) (loadMovieKeys inp) db.movies).2
          (upsertSeq Prod.fst actorIns actorUpd inp.unique_actors db.actors).2
          (insertBridges inp
            (upsertSeq id (movieIns inp) (movieUpd inp) (loadMovieKeys inp) db.movies).2
            (upsertSeq Prod.fst actorIns actorUpd inp.unique_actors db.actors).2 db.bridge)
          = insertBridges inp
            (upsertSeq id (movieIns inp) (movieUpd inp) (loadMovieKeys inp) db.movies).2
            (upsertSeq Prod.fst actorIns actorUpd inp.unique_actors db.actors).2 db.bridge :=
        guardedInsertFold_idem _ _
          (bridgePrep_coh
            (upsertSeq id (movieIns inp) (movieUpd inp) (loadMovieKeys inp) db.movies).2
            (upsertSeq Prod.fst actorIns actorUpd inp.unique_actors db.actors).2) _ db.bridge
      have HF : insertFacts inp (normLinks inp.links_raw)
          (upsertSeq id (bookIns inp) (bookUpd inp) (loadBookKeys inp) db.books).2
          (upsertSeq id (movieIns inp) (movieUpd inp) (loadMovieKeys inp) db.movies).2
          (insertFacts inp (normLinks inp.links_raw)
            (upsertSeq id (bookIns inp) (bookUpd inp) (loadBookKeys inp) db.books).2
            (upsertSeq id (movieIns inp) (movieUpd inp) (loadMovieKeys inp) db.movies).2 db.facts)
          = insertFacts inp (normLinks inp.links_raw)
            (upsertSeq id (bookIns inp) (bookUpd inp) (loadBookKeys inp) db.books).2
            (upsertSeq id (movieIns inp) (movieUpd inp) (loadMovieKeys inp) db.movies).2 db.facts :=
        guardedInsertFold_idem _ _
          (factPrep_coh inp
            (upsertSeq id (bookIns inp) (bookUpd inp) (loadBookKeys inp) db.books).2
            (upsertSeq id (movieIns inp) (movieUpd inp) (loadMovieKeys inp) db.movies).2)
          _ db.facts
      rw [unf db, unf (DW.mk _ _ _ _ _ _)]
      simp only
      rw [HB, HM, HA, HD, HE, HF]

/-! ### Claim C10: existing fact rows are frozen under base-load re-runs -/

/-- C10: once a fact row exists at a (Book_SK, Movie_SK) pair, re-running
the base load stage leaves that stored row — every measure field included —
untouched, whatever measures the input now supplies: the fact insert is
`ON CONFLICT (Book_SK, Movie_SK) DO NOTHING` and no other statement of the
stage writes to the fact table. -/
theorem C10_fact_row_frozen (inp : LoadInput) (db : DW) (bsk msk : Nat) (r : FactRow)
    (h : db.facts.find? (fun f => f.book_sk == bsk && f.movie_sk == msk) = some r) :
    (load_dw_from_bfr inp db).facts.find?
      (fun f => f.book_sk == bsk && f.movie_sk == msk) = some r := by
  by_cases hl : (normLinks inp.links_raw).isEmpty = true
  · simpa [load_dw_from_bfr, hl] using h
  · have hl' : (normLinks inp.links_raw).isEmpty = false := by
      cases h2 : (normLinks inp.links_raw).isEmpty
      · rfl
      · exact absurd h2 hl
    have unf : (load_dw_from_bfr inp db).facts
        = insertFacts inp (normLinks inp.links_raw)
          (upsertSeq id (bookIns inp) (bookUpd inp) (loadBookKeys inp) db.books).2
          (upsertSeq id (movieIns inp) (movieUpd inp) (loadMovieKeys inp) db.movies).2
          db.facts := by
      unfold load_dw_from_bfr
      rw [hl']
      rw [if_neg (by simp : ¬ (false = true))]
    rw [unf]
    exact guardedInsertFold_find _ _ _ _ _ _ h

/-! ### Concrete scenario witnesses (the Matrix/Neuromancer rows of the spec) -/

def emptyDW : DW := ⟨⟨[], 1⟩, ⟨[], 1⟩, ⟨[], 1⟩, [], [], []⟩

def neuromancerMeasures : BookMeasures :=
  { title := some "Neuromancer"
  , authors := Option.none
  , isbn := Option.none
  , pub_date := Option.none
  , language_code := Option.none
  , num_pages := Option.none
  , avg_rating := Option.none
  , ratings_count := Option.none
  , text_reviews_count := Option.none }

def matrixSrc : MovieSrc :=
  { imdb_id := "tt0133093"
  , title := some "The Matrix"
  , release_date := some ⟨1999, 3, 31⟩
  , vote_average := Option.none
  , vote_count := Option.none
  , distributor := Option.none
  , genre := Option.none
  , director := Option.none
  , budget := Option.none
  , revenue := Option.none }

def matrixInput : LoadInput :=
  { links_raw := [("123", "0133093")]
  , book_measures := [("123", neuromancerMeasures)]
  , imdb_to_movie := [("0133093", matrixSrc)]
  , imdb_to_genre := []
  , imdb_to_director := []
  , unique_actors := []
  , actors_data := [] }

/-- C1 witness: loading the Matrix/Neuromancer link into an empty warehouse
gives a fact table with unique (Book_SK, Movie_SK) pairs, and a second run
of the identical input changes nothing. -/
theorem C1_witness :
    ((load_dw_from_bfr matrixInput emptyDW).facts.map
      (fun f => (f.book_sk, f.movie_sk))).Nodup ∧
    load_dw_from_bfr matrixInput (load_dw_from_bfr matrixInput emptyDW)
      = load_dw_from_bfr matrixInput emptyDW :=
  C1_fact_grain_and_idempotence matrixInput emptyDW (by decide) (by decide) (by decide)
    (by decide) (by decide)

/-- The same link, but the source now supplies financial measures. -/
def matrixInputFunded : LoadInput :=
  { matrixInput with
    imdb_to_movie := [("0133093", { matrixSrc with budget := some 100, revenue := some 300 })] }

def frozenFact : FactRow :=
  { book_sk := 1
  , movie_sk := 1
  , movie_release_date_sk := some 19990331
  , box_office_gross := Option.none
  , tickets_sold := Option.none
  , production_budget := some 5
  , profit := some 2
  , roi := Option.none
  , book_average_rating := Option.none
  , book_ratings_count := Option.none
  , book_text_reviews_count := Option.none
  , movie_average_rating := Option.none
  , movie_review_count := Option.none }

def frozenDW : DW := ⟨⟨[], 1⟩, ⟨[], 1⟩, ⟨[], 1⟩, [], [], [frozenFact]⟩

/-- C10 witness: the stored fact row at (1, 1) — with budget 5 and profit 2 —
survives a re-run whose source now reports budget 100 and revenue 300. -/
theorem C10_witness :
    (load_dw_from_bfr matrixInputFunded frozenDW).facts.find?
      (fun f => f.book_sk == 1 && f.movie_sk == 1) = some frozenFact :=
  C10_fact_row_frozen matrixInputFunded frozenDW 1 1 frozenFact (by decide)

/-! ### The bulk actor loader (imdb_loader.py:67-185, claim C7) -/

/-- One staged row of names.basics.tsv after the rename of lines 100-105
(`\N` read as NULL, so every field is optional). -/
structure ImdbActorRow where
  actor_id_source : Option String
  name : Option String
  birth_year : Option Int
  primary_profession : Option String
deriving DecidableEq

/-- Chunk cleaning (lines 109-119): `dropna(subset=['name'])` with the drop
count `original_count - len(chunk_df)` that is reported, then
`str(x)[:255] if pd.notna(x) else None` on `primary_profession`. -/
def clean_chunk (chunk : List ImdbActorRow) : List ImdbActorRow × Nat :=
  ((chunk.filter (fun r => r.name.isSome)).map
      (fun r => { r with primary_profession := r.primary_profession.map (fun s => s.take 255) }),
   chunk.length - (chunk.filter (fun r => r.name.isSome)).length)

/-- A stored `Dim_Actor` row as this loader sees it. -/
structure ActorDimRow where
  actor_id_source : Option String
  name : Option String
  birth_year : Option Int
  primary_profession : Option String
deriving DecidableEq

/-- The set-based upsert (lines 157-169), per staged row:
`ON CONFLICT (Actor_ID_Source) DO UPDATE SET Name, Birth_Year,
Primary_Profession`.  SQL unique constraints never treat NULLs as equal, so
a row with a NULL id always inserts. -/
def upsert_actor_row (db : List ActorDimRow) (r : ImdbActorRow) : List ActorDimRow :=
  match r.actor_id_source with
  | Option.none => db ++ [⟨Option.none, r.name, r.birth_year, r.primary_profession⟩]
  | some k =>
    if db.any (fun x => x.actor_id_source == some k) then
      db.map (fun x =>
        if x.actor_id_source == some k then ⟨some k, r.name, r.birth_year, r.primary_profession⟩
        else x)
    else db ++ [⟨some k, r.name, r.birth_year, r.primary_profession⟩]

def upsert_chunk (db : List ActorDimRow) (cleaned : List ImdbActorRow) : List ActorDimRow :=
  cleaned.foldl upsert_actor_row db

/-- The chunk loop (lines 95-178): each chunk is cleaned and upserted in its
own transaction; an exception anywhere inside one chunk's transaction
(the failure oracle `fails` on the chunk index) rolls only that chunk back,
is caught (lines 175-178), and the loop continues with the next chunk.  The
second component is the `total_rows_processed` counter, summing the staged
row count of every successful chunk. -/
def run_chunks (fails : Nat → Bool) : List (List ImdbActorRow) → Nat → List ActorDimRow →
    List ActorDimRow × Nat
  | [], _, db => (db, 0)
  | ch :: rest, n, db =>
    if fails n then run_chunks fails rest (n + 1) db
    else
      ((run_chunks fails rest (n + 1) (upsert_chunk db (clean_chunk ch).1)).1,
       (clean_chunk ch).1.length
         + (run_chunks fails rest (n + 1) (upsert_chunk db (clean_chunk ch).1)).2)

theorem filter_isSome_isNone_length (l : List ImdbActorRow) :
    (l.filter (fun r => r.name.isSome)).length + (l.filter (fun r => r.name.isNone)).length
      = l.length := by
  induction l with
  | nil => rfl
  | cons r rs ih =>
    cases h : r.name with
    | none => simp [List.filter_cons, h]; omega
    | some v => simp [List.filter_cons, h]; omega

theorem upsert_chunk_length (rows : List ImdbActorRow) :
    ∀ db : List ActorDimRow,
      (rows.filterMap ImdbActorRow.actor_id_source).Nodup →
      (∀ k, (some k) ∈ rows.map ImdbActorRow.actor_id_source →
        db.any (fun x => x.actor_id_source == some k) = false) →
      (upsert_chunk db rows).length = db.length + rows.length := by
  induction rows with
  | nil => intro db _ _; simp [upsert_chunk]
  | cons r rs ih =>
    intro db hnd hdb
    have step : upsert_chunk db (r :: rs) = upsert_chunk (upsert_actor_row db r) rs := rfl
    cases hid : r.actor_id_source with
    | none =>
      have e : upsert_actor_row db r
          = db ++ [(⟨Option.none, r.name, r.birth_year, r.primary_profession⟩ : ActorDimRow)] := by
        simp [upsert_actor_row, hid]
      have hnd' : (rs.filterMap ImdbActorRow.actor_id_source).Nodup := by
        have h2 : (r :: rs).filterMap ImdbActorRow.actor_id_source
            = rs.filterMap ImdbActorRow.actor_id_source := by
          simp [List.filterMap_cons, hid]
        rw [h2] at hnd; exact hnd
      have hdb' : ∀ k, (some k) ∈ rs.map ImdbActorRow.actor_id_source →
          ((db ++ [(⟨Option.none, r.name, r.birth_year, r.primary_profession⟩ : ActorDimRow)]).any
            (fun x => x.actor_id_source == some k)) = false := by
        intro k hk
        rw [List.any_append]
        have h1 := hdb k (by rw [List.map_cons]; exact List.mem_cons_of_mem _ hk)
        simp [h1]
      rw [step, e, ih _ hnd' hdb']
      simp [List.length_append]
      omega
    | some k0 =>
      have hfree := hdb k0 (by rw [List.map_cons, hid]; exact List.mem_cons_self _ _)
      have e : upsert_actor_row db r
          = db ++ [(⟨some k0, r.name, r.birth_year, r.primary_profession⟩ : ActorDimRow)] := by
        simp [upsert_actor_row, hid, hfree]
      have hcons : (r :: rs).filterMap ImdbActorRow.actor_id_source
          = k0 :: rs.filterMap ImdbActorRow.actor_id_source := by
        simp [List.filterMap_cons, hid]
      have hk0notin : k0 ∉ rs.filterMap ImdbActorRow.actor_id_source := by
        rw [hcons] at hnd; exact (List.nodup_cons.mp hnd).1
      have hnd' : (rs.filterMap ImdbActorRow.actor_id_source).Nodup := by
        rw [hcons] at hnd; exact (List.nodup_cons.mp hnd).2
      have hdb' : ∀ k, (some k) ∈ rs.map ImdbActorRow.actor_id_source →
          ((db ++ [(⟨some k0, r.name, r.birth_year, r.primary_profession⟩ : ActorDimRow)]).any
            (fun x => x.actor_id_source == some k)) = false := by
        intro k hk
        rw [List.any_append]
        have h1 := hdb k (by rw [List.map_cons]; exact List.mem_cons_of_mem _ hk)
        have hkne : k0 ≠ k := by
          intro he
          subst he
          obtain ⟨r2, hr2, hid2⟩ := List.mem_map.mp hk
          exact hk0notin (List.mem_filterMap.mpr ⟨r2, hr2, hid2⟩)
        simp [h1, hkne]
      rw [step, e, ih _ hnd' hdb']
      simp [List.length_append]
      omega

/-- C7: in the bulk actor loader, (i) a chunk with exactly one null-name row
is cleaned to chunk size − 1 staged rows with a reported drop count of 1;
(ii) upserting those staged rows into a dimension that does not yet hold
their ids adds exactly that many rows — so such a chunk yields exactly
chunk size − 1 upserted actor rows; and (iii) a failure in one chunk is
skipped and the next chunk is still processed against the unchanged state:
with chunk 0 failing, the run of [c1, c2] equals just the upsert of c2. -/
theorem C7_bulk_actor_loader :
    (∀ chunk : List ImdbActorRow,
      (chunk.filter (fun r => r.name.isNone)).length = 1 →
      (clean_chunk chunk).2 = 1 ∧ (clean_chunk chunk).1.length = chunk.length - 1) ∧
    (∀ (chunk : List ImdbActorRow) (db : List ActorDimRow),
      ((clean_chunk chunk).1.filterMap ImdbActorRow.actor_id_source).Nodup →
      (∀ k, (some k) ∈ (clean_chunk chunk).1.map ImdbActorRow.actor_id_source →
        db.any (fun x => x.actor_id_source == some k) = false) →
      (upsert_chunk db (clean_chunk chunk).1).length
        = db.length + (clean_chunk chunk).1.length) ∧
    (∀ (c1 c2 : List ImdbActorRow) (db : List ActorDimRow),
      run_chunks (fun n => n == 0) [c1, c2] 0 db
        = (upsert_chunk db (clean_chunk c2).1, (clean_chunk c2).1.length)) := by
  refine ⟨?_, ?_, ?_⟩
  · intro chunk h1
    have hlen := filter_isSome_isNone_length chunk
    constructor
    · simp only [clean_chunk]
      omega
    · simp only [clean_chunk, List.length_map]
      omega
  · intro chunk db hnd hdb
    exact upsert_chunk_length (clean_chunk chunk).1 db hnd hdb
  · intro c1 c2 db
    rfl

/-- C7 witness: a 3-row chunk with one null name and distinct ids stages 2
rows (1 drop reported), upserts exactly 2 rows into an empty dimension, and
a failing first chunk is skipped while the second still lands. -/
theorem C7_witness :
    ((clean_chunk [⟨some "nm1", some "A", Option.none, Option.none⟩,
        ⟨some "nm2", Option.none, Option.none, Option.none⟩,
        ⟨some "nm3", some "C", Option.none, some "actor"⟩]).2 = 1 ∧
     (clean_chunk [⟨some "nm1", some "A", Option.none, Option.none⟩,
        ⟨some "nm2", Option.none, Option.none, Option.none⟩,
        ⟨some "nm3", some "C", Option.none, some "actor"⟩]).1.length = 3 - 1) ∧
    (upsert_chunk [] (clean_chunk [⟨some "nm1", some "A", Option.none, Option.none⟩,
        ⟨some "nm2", Option.none, Option.none, Option.none⟩,
        ⟨some "nm3", some "C", Option.none, some "actor"⟩]).1).length
      = List.length ([] : List ActorDimRow)
        + (clean_chunk [⟨some "nm1", some "A", Option.none, Option.none⟩,
            ⟨some "nm2", Option.none, Option.none, Option.none⟩,
            ⟨some "nm3", some "C", Option.none, some "actor"⟩]).1.length ∧
    run_chunks (fun n => n == 0)
        [[⟨some "nm9", some "Z", Option.none, Option.none⟩],
         [⟨some "nm1", some "A", Option.none, Option.none⟩]] 0 []
      = (upsert_chunk [] (clean_chunk [⟨some "nm1", some "A", Option.none, Option.none⟩]).1,
         (clean_chunk [⟨some "nm1", some "A", Option.none, Option.none⟩]).1.length) :=
  ⟨C7_bulk_actor_loader.1 _ (by decide),
   C7_bulk_actor_loader.2.1 _ [] (by decide) (fun _ _ => rfl),
   C7_bulk_actor_loader.2.2 _ _ []⟩

/-! ### The box-office enrichment (box_office_loader.py:68-170, claim C8) -/

/-- One renamed CSV row (lines 88-98): `movie` is the title (`none` = NaN),
`distributor`/`genre` may be absent, the date/gross/tickets cells keep their
raw scalar form. -/
structure BoxRow where
  movie : Option String
  release_date : PyVal
  distributor : Option String
  genre : Option String
  gross : PyVal
  tickets : PyVal
deriving DecidableEq

/-- `SELECT Movie_SK FROM Dim_Movie WHERE Movie_Title_Source = :title AND
Release_Year = :year` with `.scalar()` (first matching row, lines 127-130). -/
def findMovieSK (movies : Dim MovieAttrs) (title : String) (year : Int) : Option Nat :=
  (movies.rows.find? (fun r =>
    r.attr.movie_title_source == title && r.attr.release_year == some year)).map DimRow.sk

/-- SQL `COALESCE(:v, col)`. -/
def coalesce {β : Type} (v old : Option β) : Option β :=
  match v with
  | some x => some x
  | Option.none => old

/-- One iteration of the enrichment loop (lines 116-164): skip when the
title is NaN or the date does not coerce, or when no dimension row matches
(title, release year); otherwise `UPDATE Dim_Movie SET Distributor =
COALESCE(:dist, Distributor), Genre = COALESCE(:genre, Genre)` on that row,
and `UPDATE Fact_Book_Adaptation SET Box_Office_Gross = :gross,
Tickets_Sold = :tickets` on every fact row of that movie, with
`gross = _clean_currency(...)` and
`tickets = _safe_int(str(...).replace(",", ""))`. -/
def box_office_process_row (td : PyVal → Option PDate) (frepr : ℚ → String)
    (dw : DW) (r : BoxRow) : DW :=
  match r.movie, coerce_date td frepr r.release_date with
  | some title, some rdate =>
    match findMovieSK dw.movies title rdate.year with
    | some sk =>
      { dw with
        movies := ⟨dw.movies.rows.map (fun row =>
          if row.sk == sk then
            ⟨row.sk, row.key,
              { row.attr with
                distributor := coalesce r.distributor row.attr.distributor
              , genre := coalesce r.genre row.attr.genre }⟩
          else row), dw.movies.next⟩
      , facts := dw.facts.map (fun f =>
          if f.movie_sk == sk then
            { f with
              box_office_gross := clean_currency frepr r.gross
            , tickets_sold := safe_int (.str (pyRemoveChar ',' (pyStr frepr r.tickets))) }
          else f) }
    | Option.none => dw
  | _, _ => dw

/-- C8: when a box-office row matches a dimension row by (title, release
year), that dimension row gets exactly distributor and genre merged
COALESCE-style (so the genre stays as it was whenever the source supplies
none, and the director and every other dimension field are untouched), all
fact rows of that movie get exactly gross and tickets overwritten with the
cleaned source values (every other fact field untouched), rows with another
surrogate key are unchanged, and no other table of the warehouse changes. -/
theorem C8_box_office_enrichment (td : PyVal → Option PDate) (frepr : ℚ → String)
    (dw : DW) (r : BoxRow) (title : String) (rdate : PDate) (sk : Nat)
    (hm : r.movie = some title)
    (hd : coerce_date td frepr r.release_date = some rdate)
    (hfind : findMovieSK dw.movies title rdate.year = some sk) :
    (∀ row ∈ dw.movies.rows, row.sk = sk →
      (⟨row.sk, row.key,
        { row.attr with
          distributor := coalesce r.distributor row.attr.distributor
        , genre := coalesce r.genre row.attr.genre }⟩ : DimRow MovieAttrs)
        ∈ (box_office_process_row td frepr dw r).movies.rows) ∧
    (∀ row ∈ dw.movies.rows, row.sk ≠ sk →
      row ∈ (box_office_process_row td frepr dw r).movies.rows) ∧
    (box_office_process_row td frepr dw r).movies.next = dw.movies.next ∧
    (∀ f ∈ dw.facts, f.movie_sk = sk →
      ({ f with
          box_office_gross := clean_currency frepr r.gross
        , tickets_sold := safe_int (.str (pyRemoveChar ',' (pyStr frepr r.tickets))) } : FactRow)
        ∈ (box_office_process_row td frepr dw r).facts) ∧
    (∀ f ∈ dw.facts, f.movie_sk ≠ sk → f ∈ (box_office_process_row td frepr dw r).facts) ∧
    (box_office_process_row td frepr dw r).books = dw.books ∧
    (box_office_process_row td frepr dw r).actors = dw.actors ∧
    (box_office_process_row td frepr dw r).dates = dw.dates ∧
    (box_office_process_row td frepr dw r).bridge = dw.bridge := by
  have unf : box_office_process_row td frepr dw r =
      { dw with
        movies := ⟨dw.movies.rows.map (fun row =>
          if row.sk == sk then
            ⟨row.sk, row.key,
              { row.attr with
                distributor := coalesce r.distributor row.attr.distributor
              , genre := coalesce r.genre row.attr.genre }⟩
          else row), dw.movies.next⟩
      , facts := dw.facts.map (fun f =>
          if f.movie_sk == sk then
            { f with
              box_office_gross := clean_currency frepr r.gross
            , tickets_sold := safe_int (.str (pyRemoveChar ',' (pyStr frepr r.tickets))) }
          else f) } := by
    unfold box_office_process_row
    rw [hm, hd]
    dsimp only
    rw [hfind]
  refine ⟨?_, ?_, ?_, ?_, ?_, ?_, ?_, ?_, ?_⟩ <;> rw [unf] <;>
    try rfl
  · intro row hrow hsk
    have h2 := List.mem_map_of_mem (f := fun row : DimRow MovieAttrs =>
      if row.sk == sk then
        (⟨row.sk, row.key,
          { row.attr with
            distributor := coalesce r.distributor row.attr.distributor
          , genre := coalesce r.genre row.attr.genre }⟩ : DimRow MovieAttrs)
      else row) hrow
    simp only [hsk, beq_self_eq_true, if_true] at h2
    rw [hsk]
    exact h2
  · intro row hrow hsk
    have h2 := List.mem_map_of_mem (f := fun row : DimRow MovieAttrs =>
      if row.sk == sk then
        (⟨row.sk, row.key,
          { row.attr with
            distributor := coalesce r.distributor row.attr.distributor
          , genre := coalesce r.genre row.attr.genre }⟩ : DimRow MovieAttrs)
      else row) hrow
    have hb : (row.sk == sk) = false := by simp [hsk]
    simp only [hb, Bool.false_eq_true, if_false] at h2
    exact h2
  · intro f hf hsk
    have h2 := List.mem_map_of_mem (f := fun f : FactRow =>
      if f.movie_sk == sk then
        { f with
          box_office_gross := clean_currency frepr r.gross
        , tickets_sold := safe_int (.str (pyRemoveChar ',' (pyStr frepr r.tickets))) }
      else f) hf
    simp only [hsk, beq_self_eq_true, if_true] at h2
    rw [hsk]
    exact h2
  · intro f hf hsk
    have h2 := List.mem_map_of_mem (f := fun f : FactRow =>
      if f.movie_sk == sk then
        { f with
          box_office_gross := clean_currency frepr r.gross
        , tickets_sold := safe_int (.str (pyRemoveChar ',' (pyStr frepr r.tickets))) }
      else f) hf
    have hb : (f.movie_sk == sk) = false := by simp [hsk]
    simp only [hb, Bool.false_eq_true, if_false] at h2
    exact h2

/-- The spec's enrichment scenario row. -/
def theMatrixBoxRow : BoxRow :=
  { movie := some "The Matrix"
  , release_date := .str "1999-03-31"
  , distributor := some "Warner Bros"
  , genre := Option.none
  , gross := .str "$465,000,000"
  , tickets := .str "12,345,678" }

/-- A populated `Dim_Movie` row for the Matrix with genre and director set. -/
def matrixMovieRow : DimRow MovieAttrs :=
  ⟨1, "0133093",
    { movie_title_source := "The Matrix"
    , release_date := some ⟨1999, 3, 31⟩
    , release_year := some 1999
    , distributor := Option.none
    , genre := some "Sci-Fi"
    , director := some "Lana Wachowski"
    , tmdb_popularity := Option.none }⟩

def matrixFact : FactRow :=
  { book_sk := 1
  , movie_sk := 1
  , movie_release_date_sk := some 19990331
  , box_office_gross := Option.none
  , tickets_sold := Option.none
  , production_budget := Option.none
  , profit := Option.none
  , roi := Option.none
  , book_average_rating := Option.none
  , book_ratings_count := Option.none
  , book_text_reviews_count := Option.none
  , movie_average_rating := Option.none
  , movie_review_count := Option.none }

def boxDW : DW := ⟨⟨[], 1⟩, ⟨[matrixMovieRow], 2⟩, ⟨[], 1⟩,
  [(19990331, ⟨1999, 3, 31⟩)], [], [matrixFact]⟩

/-- The `pd.to_datetime` collaborator for the witness run. -/
def matrixTd : PyVal → Option PDate := fun v =>
  if v = .str "1999-03-31" then some ⟨1999, 3, 31⟩ else Option.none

/-- C8 witness: the Warner Bros row matched by (The Matrix, 1999) updates
the dimension's distributor, keeps its Sci-Fi genre (source supplies none)
and its director, and overwrites the fact row's gross and tickets. -/
theorem C8_witness :
    ((⟨matrixMovieRow.sk, matrixMovieRow.key,
      { matrixMovieRow.attr with
        distributor := coalesce theMatrixBoxRow.distributor matrixMovieRow.attr.distributor
      , genre := coalesce theMatrixBoxRow.genre matrixMovieRow.attr.genre }⟩ : DimRow MovieAttrs)
      ∈ (box_office_process_row matrixTd (fun _ => "") boxDW theMatrixBoxRow).movies.rows) ∧
    (({ matrixFact with
        box_office_gross := clean_currency (fun _ => "") theMatrixBoxRow.gross
      , tickets_sold := safe_int (.str (pyRemoveChar ','
          (pyStr (fun _ => "") theMatrixBoxRow.tickets))) } : FactRow)
      ∈ (box_office_process_row matrixTd (fun _ => "") boxDW theMatrixBoxRow).facts) ∧
    (box_office_process_row matrixTd (fun _ => "") boxDW theMatrixBoxRow).dates = boxDW.dates :=
  ⟨(C8_box_office_enrichment matrixTd (fun _ => "") boxDW theMatrixBoxRow "The Matrix"
      ⟨1999, 3, 31⟩ 1 (by decide) (by decide) (by decide)).1 matrixMovieRow (by decide) rfl,
   (C8_box_office_enrichment matrixTd (fun _ => "") boxDW theMatrixBoxRow "The Matrix"
      ⟨1999, 3, 31⟩ 1 (by decide) (by decide) (by decide)).2.2.2.1 matrixFact (by decide) rfl,
   (C8_box_office_enrichment matrixTd (fun _ => "") boxDW theMatrixBoxRow "The Matrix"
      ⟨1999, 3, 31⟩ 1 (by decide) (by decide) (by decide)).2.2.2.2.2.2.2.1⟩
